import Mathlib

/-!
Verification of the tic-tac-toe minimax engine (`tictactoe_minimax.py`).

The Python program stores the board as a 3×3 list of lists whose entries are
the one-character strings "X", "O" and "-".  We embed those three values as
the inductive type `Cell` (`Cell.X` for "X", `Cell.O` for "O", `Cell.E` for
"-") and the board as `List (List Cell)`.  the in-place mutation of the Python code is
modelled by explicit state passing: every function that mutates the board
returns the resulting board alongside its result, so that the restoration
discipline of the search ("place, recurse, revert") becomes a provable
statement about the returned board.

The recursion of `minimax` is not structural, so the embedding carries an
explicit fuel argument; the recursion of the Python program is well-founded
because every recursive call strictly decreases the number of "-" cells,
which here becomes the theorem that any fuel of at least `emptyCount b`
yields the same result as fuel exactly `emptyCount b`.
-/

/-- A cell value: `X` embeds the string "X", `O` embeds "O", `E` embeds "-". -/
inductive Cell : Type
  | X : Cell
  | O : Cell
  | E : Cell
deriving DecidableEq, Repr, Fintype

/-- The board, as in the source: a list of rows, each row a list of cells.
The `Board()` constructor makes it 3×3; `WF` below records that shape. -/
abbrev Board := List (List Cell)

/-- Reading `state.board[r][c]`.  Out-of-range reads (which would raise in
Python but never occur on the 3×3 boards the program builds) default to `E`. -/
def cellAt (b : Board) (r c : Nat) : Cell := (b.getD r []).getD c Cell.E

/-- Writing `state.board[r][c] = v` (out-of-range writes are dropped,
matching the fact that the program only ever writes in range). -/
def setCell (b : Board) (r c : Nat) (v : Cell) : Board :=
  b.set r ((b.getD r []).set c v)

/-- The well-formedness the `Board()` constructor guarantees: 3 rows of 3. -/
def WF (b : Board) : Prop := b.length = 3 ∧ ∀ row ∈ b, row.length = 3

instance : DecidablePred WF := fun b =>
  inferInstanceAs (Decidable (b.length = 3 ∧ ∀ row ∈ b, row.length = 3))

/-- Embedding of `Board.game_state`: the literal cascade of checks, the loop
`for i in range(3)` unrolled.  Returns `(won, symbol)` exactly as the Python
method returns `(True, 'X')`, `(True, 'O')` or `(False, None)`. -/
def game_state (b : Board) : Bool × Option Cell :=
  if cellAt b 0 0 = Cell.X ∧ cellAt b 0 1 = Cell.X ∧ cellAt b 0 2 = Cell.X then (true, some Cell.X)
  else if cellAt b 0 0 = Cell.O ∧ cellAt b 0 1 = Cell.O ∧ cellAt b 0 2 = Cell.O then (true, some Cell.O)
  else if cellAt b 0 0 = Cell.X ∧ cellAt b 1 0 = Cell.X ∧ cellAt b 2 0 = Cell.X then (true, some Cell.X)
  else if cellAt b 0 0 = Cell.O ∧ cellAt b 1 0 = Cell.O ∧ cellAt b 2 0 = Cell.O then (true, some Cell.O)
  else if cellAt b 1 0 = Cell.X ∧ cellAt b 1 1 = Cell.X ∧ cellAt b 1 2 = Cell.X then (true, some Cell.X)
  else if cellAt b 1 0 = Cell.O ∧ cellAt b 1 1 = Cell.O ∧ cellAt b 1 2 = Cell.O then (true, some Cell.O)
  else if cellAt b 0 1 = Cell.X ∧ cellAt b 1 1 = Cell.X ∧ cellAt b 2 1 = Cell.X then (true, some Cell.X)
  else if cellAt b 0 1 = Cell.O ∧ cellAt b 1 1 = Cell.O ∧ cellAt b 2 1 = Cell.O then (true, some Cell.O)
  else if cellAt b 2 0 = Cell.X ∧ cellAt b 2 1 = Cell.X ∧ cellAt b 2 2 = Cell.X then (true, some Cell.X)
  else if cellAt b 2 0 = Cell.O ∧ cellAt b 2 1 = Cell.O ∧ cellAt b 2 2 = Cell.O then (true, some Cell.O)
  else if cellAt b 0 2 = Cell.X ∧ cellAt b 1 2 = Cell.X ∧ cellAt b 2 2 = Cell.X then (true, some Cell.X)
  else if cellAt b 0 2 = Cell.O ∧ cellAt b 1 2 = Cell.O ∧ cellAt b 2 2 = Cell.O then (true, some Cell.O)
  else if (cellAt b 0 0 = Cell.X ∧ cellAt b 1 1 = Cell.X ∧ cellAt b 2 2 = Cell.X) ∨
          (cellAt b 0 2 = Cell.X ∧ cellAt b 1 1 = Cell.X ∧ cellAt b 2 0 = Cell.X) then (true, some Cell.X)
  else if (cellAt b 0 0 = Cell.O ∧ cellAt b 1 1 = Cell.O ∧ cellAt b 2 2 = Cell.O) ∨
          (cellAt b 0 2 = Cell.O ∧ cellAt b 1 1 = Cell.O ∧ cellAt b 2 0 = Cell.O) then (true, some Cell.O)
  else (false, none)

/-- Embedding of `Board.check_pos`: true iff the cell holds "-". -/
def check_pos (b : Board) (r c : Nat) : Bool :=
  if cellAt b r c = Cell.E then true else false

/-- Embedding of `Board.board_full`: true iff no cell of the board holds "-". -/
def board_full (b : Board) : Bool :=
  b.all fun row => row.all fun col => !(col = Cell.E)

/-- The row-major traversal order of the two nested loops
`for row in range(len(state.board)): for col in range(len(state.board[row]))`. -/
def positions (b : Board) : List (Nat × Nat) :=
  (List.range b.length).flatMap fun r =>
    (List.range (b.getD r []).length).map fun c => (r, c)

/-- The number of "-" cells on the board: the measure that strictly
decreases at every recursive call of `minimax`. -/
def emptyCount (b : Board) : Nat :=
  (b.map fun row => (row.filter fun col => col = Cell.E).length).sum

/-- The body of the maximising loop of `minimax`: on each "-" cell, place
"O", score with `rec` (the recursive call), revert, keep a strictly greater
score.  `rec` returns the score together with the board it leaves behind. -/
def mmFoldMax (rec : Board → Int × Board) :
    List (Nat × Nat) → Int → Board → Int × Board
  | [], best_score, st => (best_score, st)
  | rc :: rest, best_score, st =>
    if cellAt st rc.1 rc.2 = Cell.E then
      let st1 := setCell st rc.1 rc.2 Cell.O
      let res := rec st1
      let st2 := setCell res.2 rc.1 rc.2 Cell.E
      if res.1 > best_score then mmFoldMax rec rest res.1 st2
      else mmFoldMax rec rest best_score st2
    else mmFoldMax rec rest best_score st

/-- The body of the minimising loop of `minimax`: place "X", score with
`rec`, revert, keep a strictly smaller score. -/
def mmFoldMin (rec : Board → Int × Board) :
    List (Nat × Nat) → Int → Board → Int × Board
  | [], best_score, st => (best_score, st)
  | rc :: rest, best_score, st =>
    if cellAt st rc.1 rc.2 = Cell.E then
      let st1 := setCell st rc.1 rc.2 Cell.X
      let res := rec st1
      let st2 := setCell res.2 rc.1 rc.2 Cell.E
      if res.1 < best_score then mmFoldMin rec rest res.1 st2
      else mmFoldMin rec rest best_score st2
    else mmFoldMin rec rest best_score st

/-- Embedding of `minimax(state, depth, max_or_min)` with explicit fuel and explicit
state passing.  The terminal test comes first, exactly as in the source;
the two layer loops traverse `positions b` in row-major order.  The fuel-0
fallback `(0, b)` is dead code whenever `emptyCount b ≤ fuel` (proved in
the stabilisation theorem below). -/
def minimax : Nat → Board → Nat → Bool → Int × Board
  | fuel, b, depth, max_or_min =>
    let gs := game_state b
    if (board_full b || gs.1) && (gs.1 && decide (gs.2 = some Cell.X)) then (-10, b)
    else if (board_full b || gs.1) && (gs.1 && decide (gs.2 = some Cell.O)) then (10, b)
    else if (board_full b || gs.1) && !gs.1 then (0, b)
    else
      match fuel with
      | 0 => (0, b)
      | fuel + 1 =>
        if max_or_min then
          mmFoldMax (fun st1 => minimax fuel st1 (depth + 1) false) (positions b) (-10000) b
        else
          mmFoldMin (fun st1 => minimax fuel st1 (depth + 1) true) (positions b) 10000 b

/-- The loop of `ai(state, player)`: on each "-" cell, place the symbol of the player, score with `minimax(state, 0, False)`, revert, and keep the move on
a strictly greater score.  `best_move` starts unassigned (Python would
raise `NameError` were it never assigned), embedded as `none`. -/
def aiFold (rec : Board → Int × Board) (symbol : Cell) :
    List (Nat × Nat) → Int → Option (Nat × Nat) → Board →
      Int × Option (Nat × Nat) × Board
  | [], best_score, best_move, st => (best_score, best_move, st)
  | rc :: rest, best_score, best_move, st =>
    if cellAt st rc.1 rc.2 = Cell.E then
      let st1 := setCell st rc.1 rc.2 symbol
      let res := rec st1
      let st2 := setCell res.2 rc.1 rc.2 Cell.E
      if res.1 > best_score then aiFold rec symbol rest res.1 (some rc) st2
      else aiFold rec symbol rest best_score best_move st2
    else aiFold rec symbol rest best_score best_move st

/-- Embedding of `ai(state, player)`: iterates the positions in row-major order starting
from `best_score = -10000` and returns the recorded best move together with
the (restored) board. -/
def ai (fuel : Nat) (b : Board) (symbol : Cell) : Option (Nat × Nat) × Board :=
  let r := aiFold (fun st1 => minimax fuel st1 0 false) symbol
    (positions b) (-10000) none b
  (r.2.1, r.2.2)

/-- The empty board built by the `Board()` constructor. -/
def emptyBoard : Board :=
  [[Cell.E, Cell.E, Cell.E], [Cell.E, Cell.E, Cell.E], [Cell.E, Cell.E, Cell.E]]

/-!
A strategy certificate

To settle the perfect-play claim we need the game value of the empty board,
which is far too expensive to obtain by kernel evaluation of `minimax`
itself.  Instead we verify, by evaluation of a much cheaper checker, that an
explicitly recorded strategy for "O" never loses, and prove (by induction)
that the existence of such a strategy bounds the `minimax` value from
below.  `STree` records the strategy: at each position with "O" to move it
stores the move to play, and for each opposing reply a subtree. -/
inductive STree : Type
  | node : Nat × Nat → List ((Nat × Nat) × STree) → STree

/-- Abbreviation used by the generated certificate trees. -/
def sn (m : Nat × Nat) (l : List ((Nat × Nat) × STree)) : STree := STree.node m l

/-- Find the recorded subtree for a given opposing reply. -/
def lookupMove : Nat × Nat → List ((Nat × Nat) × STree) → Option STree
  | _, [] => none
  | rc, (mv, t) :: rest => if mv = rc then some t else lookupMove rc rest

/-- Check the certificate at a position with "X" to move, parametrised by
the check used on the positions reached by the replies of X: the position must not be
lost, and if play continues every "-" cell must have a recorded subtree
that the continuation check accepts after "X" plays there. -/
def certXStep (rec : Board → STree → Bool) (b : Board)
    (children : List ((Nat × Nat) × STree)) : Bool :=
  if (game_state b).1 then !(decide ((game_state b).2 = some Cell.X))
  else if board_full b then true
  else
    (positions b).all fun rc =>
      !(check_pos b rc.1 rc.2) ||
      (match lookupMove rc children with
       | some t => rec (setCell b rc.1 rc.2 Cell.X) t
       | none => false)

/-- Check the certificate at a position with "O" to move: the position must
not be lost, and if play continues the recorded move must be a legal board
cell holding "-", after which every "X" reply must pass the check again. -/
def certO : Nat → Board → STree → Bool
  | fuel, b, t =>
    if (game_state b).1 then !(decide ((game_state b).2 = some Cell.X))
    else if board_full b then true
    else match fuel, t with
      | 0, _ => false
      | fuel + 1, STree.node m children =>
        decide (m.1 < 3) && decide (m.2 < 3) && check_pos b m.1 m.2 &&
          certXStep (certO fuel) (setCell b m.1 m.2 Cell.O) children

/-- Check the certificate at a position with "X" to move. -/
def certX (fuel : Nat) (b : Board) (children : List ((Nat × Nat) × STree)) : Bool :=
  certXStep (certO fuel) b children

/-- Certificate tree: the scripted drawing strategy when the bot moves first. -/
def oCert : STree :=
  sn (1,1) [((0,0), sn (0,2) [((0,1), sn (2,0) []), ((1,0), sn (2,0) []), ((1,2), sn (2,0) []), ((2,0), sn (1,0) [((0,1), sn (1,2) []), ((1,2), sn (2,2) [((0,1), sn (2,1) []), ((2,1), sn (0,1) [])]), ((2,1), sn (1,2) []), ((2,2), sn (1,2) [])]), ((2,1), sn (2,0) []), ((2,2), sn (2,0) [])]), ((0,1), sn (0,0) [((0,2), sn (2,2) []), ((1,0), sn (2,2) []), ((1,2), sn (2,2) []), ((2,0), sn (2,2) []), ((2,1), sn (2,2) []), ((2,2), sn (0,2) [((1,0), sn (2,0) []), ((1,2), sn (2,0) []), ((2,0), sn (2,1) [((1,0), sn (1,2) []), ((1,2), sn (1,0) [])]), ((2,1), sn (2,0) [])])]), ((0,2), sn (0,0) [((0,1), sn (2,2) []), ((1,0), sn (2,2) []), ((1,2), sn (2,2) []), ((2,0), sn (2,2) []), ((2,1), sn (2,2) []), ((2,2), sn (1,2) [((0,1), sn (1,0) []), ((1,0), sn (2,0) [((0,1), sn (2,1) []), ((2,1), sn (0,1) [])]), ((2,0), sn (1,0) []), ((2,1), sn (1,0) [])])]), ((1,0), sn (0,0) [((0,1), sn (2,2) []), ((0,2), sn (2,2) []), ((1,2), sn (2,2) []), ((2,0), sn (2,2) []), ((2,1), sn (2,2) []), ((2,2), sn (0,2) [((0,1), sn (2,0) []), ((1,2), sn (0,1) []), ((2,0), sn (0,1) []), ((2,1), sn (0,1) [])])]), ((1,2), sn (0,0) [((0,1), sn (2,2) []), ((0,2), sn (2,2) []), ((1,0), sn (2,2) []), ((2,0), sn (2,2) []), ((2,1), sn (2,2) []), ((2,2), sn (0,2) [((0,1), sn (2,0) []), ((1,0), sn (0,1) []), ((2,0), sn (0,1) []), ((2,1), sn (0,1) [])])]), ((2,0), sn (0,0) [((0,1), sn (2,2) []), ((0,2), sn (2,2) []), ((1,0), sn (2,2) []), ((1,2), sn (2,2) []), ((2,1), sn (2,2) []), ((2,2), sn (2,1) [((0,1), sn (0,2) [((1,0), sn (1,2) []), ((1,2), sn (1,0) [])]), ((0,2), sn (0,1) []), ((1,0), sn (0,1) []), ((1,2), sn (0,1) [])])]), ((2,1), sn (0,0) [((0,1), sn (2,2) []), ((0,2), sn (2,2) []), ((1,0), sn (2,2) []), ((1,2), sn (2,2) []), ((2,0), sn (2,2) []), ((2,2), sn (2,0) [((0,1), sn (0,2) []), ((0,2), sn (1,0) []), ((1,0), sn (0,2) []), ((1,2), sn (0,2) [])])]), ((2,2), sn (0,0) [((0,1), sn (0,2) [((1,0), sn (2,0) []), ((1,2), sn (2,0) []), ((2,0), sn (2,1) [((1,0), sn (1,2) []), ((1,2), sn (1,0) [])]), ((2,1), sn (2,0) [])]), ((0,2), sn (1,2) [((0,1), sn (1,0) []), ((1,0), sn (2,0) [((0,1), sn (2,1) []), ((2,1), sn (0,1) [])]), ((2,0), sn (1,0) []), ((2,1), sn (1,0) [])]), ((1,0), sn (0,2) [((0,1), sn (2,0) []), ((1,2), sn (0,1) []), ((2,0), sn (0,1) []), ((2,1), sn (0,1) [])]), ((1,2), sn (0,2) [((0,1), sn (2,0) []), ((1,0), sn (0,1) []), ((2,0), sn (0,1) []), ((2,1), sn (0,1) [])]), ((2,0), sn (2,1) [((0,1), sn (0,2) [((1,0), sn (1,2) []), ((1,2), sn (1,0) [])]), ((0,2), sn (0,1) []), ((1,0), sn (0,1) []), ((1,2), sn (0,1) [])]), ((2,1), sn (2,0) [((0,1), sn (0,2) []), ((0,2), sn (1,0) []), ((1,0), sn (0,2) []), ((1,2), sn (0,2) [])])])]

/-- Certificate trees: the scripted drawing strategy replies when the opponent moves first. -/
def xCert : List ((Nat × Nat) × STree) :=
  [((0,0), sn (1,1) [((0,1), sn (0,2) [((1,0), sn (2,0) []), ((1,2), sn (2,0) []), ((2,0), sn (1,0) [((1,2), sn (2,2) [((2,1), sn (0,0) [])]), ((2,1), sn (1,2) []), ((2,2), sn (1,2) [])]), ((2,1), sn (2,0) []), ((2,2), sn (2,0) [])]), ((0,2), sn (0,1) [((1,0), sn (2,1) []), ((1,2), sn (2,1) []), ((2,0), sn (2,1) []), ((2,1), sn (2,0) [((1,0), sn (2,2) [((1,2), sn (0,0) [])]), ((1,2), sn (2,2) [((1,0), sn (0,0) [])]), ((2,2), sn (1,2) [((1,0), sn (0,0) [])])]), ((2,2), sn (2,1) [])]), ((1,0), sn (2,0) [((0,1), sn (0,2) []), ((0,2), sn (0,1) [((1,2), sn (2,1) []), ((2,1), sn (2,2) [((1,2), sn (0,0) [])]), ((2,2), sn (2,1) [])]), ((1,2), sn (0,2) []), ((2,1), sn (0,2) []), ((2,2), sn (0,2) [])]), ((1,2), sn (0,2) [((0,1), sn (2,0) []), ((1,0), sn (2,0) []), ((2,0), sn (1,0) [((0,1), sn (2,2) [((2,1), sn (0,0) [])]), ((2,1), sn (2,2) [((0,1), sn (0,0) [])]), ((2,2), sn (2,1) [((0,1), sn (0,0) [])])]), ((2,1), sn (2,0) []), ((2,2), sn (2,0) [])]), ((2,0), sn (1,0) [((0,1), sn (1,2) []), ((0,2), sn (1,2) []), ((1,2), sn (0,2) [((0,1), sn (2,2) [((2,1), sn (0,0) [])]), ((2,1), sn (2,2) [((0,1), sn (0,0) [])]), ((2,2), sn (2,1) [((0,1), sn (0,0) [])])]), ((2,1), sn (1,2) []), ((2,2), sn (1,2) [])]), ((2,1), sn (2,0) [((0,1), sn (0,2) []), ((0,2), sn (0,1) [((1,0), sn (2,2) [((1,2), sn (0,0) [])]), ((1,2), sn (2,2) [((1,0), sn (0,0) [])]), ((2,2), sn (1,2) [((1,0), sn (0,0) [])])]), ((1,0), sn (0,2) []), ((1,2), sn (0,2) []), ((2,2), sn (0,2) [])]), ((2,2), sn (0,1) [((0,2), sn (2,1) []), ((1,0), sn (2,1) []), ((1,2), sn (2,1) []), ((2,0), sn (2,1) []), ((2,1), sn (2,0) [((0,2), sn (1,2) [((1,0), sn (0,0) [])]), ((1,0), sn (0,2) []), ((1,2), sn (0,2) [])])])]), ((0,1), sn (1,1) [((0,0), sn (0,2) [((1,0), sn (2,0) []), ((1,2), sn (2,0) []), ((2,0), sn (1,0) [((1,2), sn (2,2) [((2,1), sn (0,0) [])]), ((2,1), sn (1,2) []), ((2,2), sn (1,2) [])]), ((2,1), sn (2,0) []), ((2,2), sn (2,0) [])]), ((0,2), sn (0,0) [((1,0), sn (2,2) []), ((1,2), sn (2,2) []), ((2,0), sn (2,2) []), ((2,1), sn (2,2) []), ((2,2), sn (1,2) [((1,0), sn (2,0) [((2,1), sn (0,0) [])]), ((2,0), sn (1,0) []), ((2,1), sn (1,0) [])])]), ((1,0), sn (0,0) [((0,2), sn (2,2) []), ((1,2), sn (2,2) []), ((2,0), sn (2,2) []), ((2,1), sn (2,2) []), ((2,2), sn (0,2) [((1,2), sn (2,0) []), ((2,0), sn (2,1) [((1,2), sn (0,0) [])]), ((2,1), sn (2,0) [])])]), ((1,2), sn (0,0) [((0,2), sn (2,2) []), ((1,0), sn (2,2) []), ((2,0), sn (2,2) []), ((2,1), sn (2,2) []), ((2,2), sn (0,2) [((1,0), sn (2,0) []), ((2,0), sn (2,1) [((1,0), sn (0,0) [])]), ((2,1), sn (2,0) [])])]), ((2,0), sn (0,0) [((0,2), sn (2,2) []), ((1,0), sn (2,2) []), ((1,2), sn (2,2) []), ((2,1), sn (2,2) []), ((2,2), sn (2,1) [((0,2), sn (1,2) [((1,0), sn (0,0) [])]), ((1,0), sn (0,2) [((1,2), sn (0,0) [])]), ((1,2), sn (0,2) [((1,0), sn (0,0) [])])])]), ((2,1), sn (0,0) [((0,2), sn (2,2) []), ((1,0), sn (2,2) []), ((1,2), sn (2,2) []), ((2,0), sn (2,2) []), ((2,2), sn (2,0) [((0,2), sn (1,0) []), ((1,0), sn (0,2) []), ((1,2), sn (0,2) [])])]), ((2,2), sn (0,0) [((0,2), sn (1,2) [((1,0), sn (2,0) [((2,1), sn (0,0) [])]), ((2,0), sn (1,0) []), ((2,1), sn (1,0) [])]), ((1,0), sn (0,2) [((1,2), sn (2,0) []), ((2,0), sn (2,1) [((1,2), sn (0,0) [])]), ((2,1), sn (2,0) [])]), ((1,2), sn (0,2) [((1,0), sn (2,0) []), ((2,0), sn (2,1) [((1,0), sn (0,0) [])]), ((2,1), sn (2,0) [])]), ((2,0), sn (2,1) [((0,2), sn (1,2) [((1,0), sn (0,0) [])]), ((1,0), sn (0,2) [((1,2), sn (0,0) [])]), ((1,2), sn (0,2) [((1,0), sn (0,0) [])])]), ((2,1), sn (2,0) [((0,2), sn (1,0) []), ((1,0), sn (0,2) []), ((1,2), sn (0,2) [])])])]), ((0,2), sn (1,1) [((0,0), sn (0,1) [((1,0), sn (2,1) []), ((1,2), sn (2,1) []), ((2,0), sn (2,1) []), ((2,1), sn (2,0) [((1,0), sn (2,2) [((1,2), sn (0,0) [])]), ((1,2), sn (2,2) [((1,0), sn (0,0) [])]), ((2,2), sn (1,2) [((1,0), sn (0,0) [])])]), ((2,2), sn (2,1) [])]), ((0,1), sn (0,0) [((1,0), sn (2,2) []), ((1,2), sn (2,2) []), ((2,0), sn (2,2) []), ((2,1), sn (2,2) []), ((2,2), sn (1,2) [((1,0), sn (2,0) [((2,1), sn (0,0) [])]), ((2,0), sn (1,0) []), ((2,1), sn (1,0) [])])]), ((1,0), sn (0,0) [((0,1), sn (2,2) []), ((1,2), sn (2,2) []), ((2,0), sn (2,2) []), ((2,1), sn (2,2) []), ((2,2), sn (1,2) [((0,1), sn (2,0) [((2,1), sn (0,0) [])]), ((2,0), sn (2,1) [((0,1), sn (0,0) [])]), ((2,1), sn (2,0) [((0,1), sn (0,0) [])])])]), ((1,2), sn (2,2) [((0,0), sn (0,1) [((1,0), sn (2,1) []), ((2,0), sn (2,1) []), ((2,1), sn (2,0) [((1,0), sn (0,0) [])])]), ((0,1), sn (0,0) []), ((1,0), sn (0,0) []), ((2,0), sn (0,0) []), ((2,1), sn (0,0) [])]), ((2,0), sn (0,1) [((0,0), sn (2,1) []), ((1,0), sn (2,1) []), ((1,2), sn (2,1) []), ((2,1), sn (2,2) [((0,0), sn (1,0) [((1,2), sn (0,0) [])]), ((1,0), sn (0,0) []), ((1,2), sn (0,0) [])]), ((2,2), sn (2,1) [])]), ((2,1), sn (2,0) [((0,0), sn (0,1) [((1,0), sn (2,2) [((1,2), sn (0,0) [])]), ((1,2), sn (2,2) [((1,0), sn (0,0) [])]), ((2,2), sn (1,2) [((1,0), sn (0,0) [])])]), ((0,1), sn (0,0) [((1,0), sn (2,2) []), ((1,2), sn (1,0) []), ((2,2), sn (1,0) [])]), ((1,0), sn (0,0) [((0,1), sn (2,2) []), ((1,2), sn (2,2) []), ((2,2), sn (1,2) [((0,1), sn (0,0) [])])]), ((1,2), sn (2,2) [((0,0), sn (0,1) [((1,0), sn (0,0) [])]), ((0,1), sn (0,0) []), ((1,0), sn (0,0) [])]), ((2,2), sn (1,2) [((0,0), sn (1,0) []), ((0,1), sn (1,0) []), ((1,0), sn (0,0) [((0,1), sn (0,0) [])])])]), ((2,2), sn (1,2) [((0,0), sn (1,0) []), ((0,1), sn (1,0) []), ((1,0), sn (0,0) [((0,1), sn (2,0) [((2,1), sn (0,0) [])]), ((2,0), sn (2,1) [((0,1), sn (0,0) [])]), ((2,1), sn (2,0) [((0,1), sn (0,0) [])])]), ((2,0), sn (1,0) []), ((2,1), sn (1,0) [])])]), ((1,0), sn (1,1) [((0,0), sn (2,0) [((0,1), sn (0,2) []), ((0,2), sn (0,1) [((1,2), sn (2,1) []), ((2,1), sn (2,2) [((1,2), sn (0,0) [])]), ((2,2), sn (2,1) [])]), ((1,2), sn (0,2) []), ((2,1), sn (0,2) []), ((2,2), sn (0,2) [])]), ((0,1), sn (0,0) [((0,2), sn (2,2) []), ((1,2), sn (2,2) []), ((2,0), sn (2,2) []), ((2,1), sn (2,2) []), ((2,2), sn (0,2) [((1,2), sn (2,0) []), ((2,0), sn (2,1) [((1,2), sn (0,0) [])]), ((2,1), sn (2,0) [])])]), ((0,2), sn (0,0) [((0,1), sn (2,2) []), ((1,2), sn (2,2) []), ((2,0), sn (2,2) []), ((2,1), sn (2,2) []), ((2,2), sn (1,2) [((0,1), sn (2,0) [((2,1), sn (0,0) [])]), ((2,0), sn (2,1) [((0,1), sn (0,0) [])]), ((2,1), sn (2,0) [((0,1), sn (0,0) [])])])]), ((1,2), sn (0,0) [((0,1), sn (2,2) []), ((0,2), sn (2,2) []), ((2,0), sn (2,2) []), ((2,1), sn (2,2) []), ((2,2), sn (0,2) [((0,1), sn (2,0) []), ((2,0), sn (0,1) []), ((2,1), sn (0,1) [])])]), ((2,0), sn (0,0) [((0,1), sn (2,2) []), ((0,2), sn (2,2) []), ((1,2), sn (2,2) []), ((2,1), sn (2,2) []), ((2,2), sn (2,1) [((0,1), sn (0,2) [((1,2), sn (0,0) [])]), ((0,2), sn (0,1) []), ((1,2), sn (0,1) [])])]), ((2,1), sn (0,0) [((0,1), sn (2,2) []), ((0,2), sn (2,2) []), ((1,2), sn (2,2) []), ((2,0), sn (2,2) []), ((2,2), sn (2,0) [((0,1), sn (0,2) []), ((0,2), sn (1,2) [((0,1), sn (0,0) [])]), ((1,2), sn (0,2) [])])]), ((2,2), sn (0,0) [((0,1), sn (0,2) [((1,2), sn (2,0) []), ((2,0), sn (2,1) [((1,2), sn (0,0) [])]), ((2,1), sn (2,0) [])]), ((0,2), sn (1,2) [((0,1), sn (2,0) [((2,1), sn (0,0) [])]), ((2,0), sn (2,1) [((0,1), sn (0,0) [])]), ((2,1), sn (2,0) [((0,1), sn (0,0) [])])]), ((1,2), sn (0,2) [((0,1), sn (2,0) []), ((2,0), sn (0,1) []), ((2,1), sn (0,1) [])]), ((2,0), sn (2,1) [((0,1), sn (0,2) [((1,2), sn (0,0) [])]), ((0,2), sn (0,1) []), ((1,2), sn (0,1) [])]), ((2,1), sn (2,0) [((0,1), sn (0,2) []), ((0,2), sn (1,2) [((0,1), sn (0,0) [])]), ((1,2), sn (0,2) [])])])]), ((1,1), sn (0,0) [((0,1), sn (2,1) [((0,2), sn (2,0) [((1,0), sn (2,2) []), ((1,2), sn (1,0) []), ((2,2), sn (1,0) [])]), ((1,0), sn (1,2) [((0,2), sn (2,0) [((2,2), sn (0,0) [])]), ((2,0), sn (0,2) [((2,2), sn (0,0) [])]), ((2,2), sn (0,2) [((2,0), sn (0,0) [])])]), ((1,2), sn (1,0) [((0,2), sn (2,0) []), ((2,0), sn (0,2) [((2,2), sn (0,0) [])]), ((2,2), sn (2,0) [])]), ((2,0), sn (0,2) [((1,0), sn (1,2) [((2,2), sn (0,0) [])]), ((1,2), sn (1,0) [((2,2), sn (0,0) [])]), ((2,2), sn (1,0) [((1,2), sn (0,0) [])])]), ((2,2), sn (0,2) [((1,0), sn (1,2) [((2,0), sn (0,0) [])]), ((1,2), sn (1,0) [((2,0), sn (0,0) [])]), ((2,0), sn (1,0) [((1,2), sn (0,0) [])])])]), ((0,2), sn (2,0) [((0,1), sn (1,0) []), ((1,0), sn (1,2) [((0,1), sn (2,1) [((2,2), sn (0,0) [])]), ((2,1), sn (0,1) [((2,2), sn (0,0) [])]), ((2,2), sn (0,1) [((2,1), sn (0,0) [])])]), ((1,2), sn (1,0) []), ((2,1), sn (1,0) []), ((2,2), sn (1,0) [])]), ((1,0), sn (1,2) [((0,1), sn (2,1) [((0,2), sn (2,0) [((2,2), sn (0,0) [])]), ((2,0), sn (0,2) [((2,2), sn (0,0) [])]), ((2,2), sn (0,2) [((2,0), sn (0,0) [])])]), ((0,2), sn (2,0) [((0,1), sn (2,1) [((2,2), sn (0,0) [])]), ((2,1), sn (0,1) [((2,2), sn (0,0) [])]), ((2,2), sn (0,1) [((2,1), sn (0,0) [])])]), ((2,0), sn (0,2) [((0,1), sn (2,2) []), ((2,1), sn (0,1) []), ((2,2), sn (0,1) [])]), ((2,1), sn (0,1) [((0,2), sn (2,0) [((2,2), sn (0,0) [])]), ((2,0), sn (0,2) []), ((2,2), sn (0,2) [])]), ((2,2), sn (0,2) [((0,1), sn (2,1) [((2,0), sn (0,0) [])]), ((2,0), sn (0,1) []), ((2,1), sn (0,1) [])])]), ((1,2), sn (1,0) [((0,1), sn (2,0) []), ((0,2), sn (2,0) []), ((2,0), sn (0,2) [((0,1), sn (2,1) [((2,2), sn (0,0) [])]), ((2,1), sn (0,1) []), ((2,2), sn (0,1) [])]), ((2,1), sn (2,0) []), ((2,2), sn (2,0) [])]), ((2,0), sn (0,2) [((0,1), sn (2,1) [((1,0), sn (1,2) [((2,2), sn (0,0) [])]), ((1,2), sn (1,0) [((2,2), sn (0,0) [])]), ((2,2), sn (1,0) [((1,2), sn (0,0) [])])]), ((1,0), sn (0,1) []), ((1,2), sn (0,1) []), ((2,1), sn (0,1) []), ((2,2), sn (0,1) [])]), ((2,1), sn (0,1) [((0,2), sn (2,0) [((1,0), sn (1,2) [((2,2), sn (0,0) [])]), ((1,2), sn (1,0) []), ((2,2), sn (1,0) [])]), ((1,0), sn (0,2) []), ((1,2), sn (0,2) []), ((2,0), sn (0,2) []), ((2,2), sn (0,2) [])]), ((2,2), sn (0,2) [((0,1), sn (2,1) [((1,0), sn (1,2) [((2,0), sn (0,0) [])]), ((1,2), sn (1,0) [((2,0), sn (0,0) [])]), ((2,0), sn (1,0) [((1,2), sn (0,0) [])])]), ((1,0), sn (0,1) []), ((1,2), sn (0,1) []), ((2,0), sn (0,1) []), ((2,1), sn (0,1) [])])]), ((1,2), sn (1,1) [((0,0), sn (0,2) [((0,1), sn (2,0) []), ((1,0), sn (2,0) []), ((2,0), sn (1,0) [((0,1), sn (2,2) [((2,1), sn (0,0) [])]), ((2,1), sn (2,2) [((0,1), sn (0,0) [])]), ((2,2), sn (2,1) [((0,1), sn (0,0) [])])]), ((2,1), sn (2,0) []), ((2,2), sn (2,0) [])]), ((0,1), sn (0,0) [((0,2), sn (2,2) []), ((1,0), sn (2,2) []), ((2,0), sn (2,2) []), ((2,1), sn (2,2) []), ((2,2), sn (0,2) [((1,0), sn (2,0) []), ((2,0), sn (2,1) [((1,0), sn (0,0) [])]), ((2,1), sn (2,0) [])])]), ((0,2), sn (2,2) [((0,0), sn (0,1) [((1,0), sn (2,1) []), ((2,0), sn (2,1) []), ((2,1), sn (2,0) [((1,0), sn (0,0) [])])]), ((0,1), sn (0,0) []), ((1,0), sn (0,0) []), ((2,0), sn (0,0) []), ((2,1), sn (0,0) [])]), ((1,0), sn (0,0) [((0,1), sn (2,2) []), ((0,2), sn (2,2) []), ((2,0), sn (2,2) []), ((2,1), sn (2,2) []), ((2,2), sn (0,2) [((0,1), sn (2,0) []), ((2,0), sn (0,1) []), ((2,1), sn (0,1) [])])]), ((2,0), sn (0,2) [((0,0), sn (1,0) [((0,1), sn (2,2) [((2,1), sn (0,0) [])]), ((2,1), sn (2,2) [((0,1), sn (0,0) [])]), ((2,2), sn (2,1) [((0,1), sn (0,0) [])])]), ((0,1), sn (0,0) [((1,0), sn (2,2) []), ((2,1), sn (2,2) []), ((2,2), sn (2,1) [((1,0), sn (0,0) [])])]), ((1,0), sn (0,0) [((0,1), sn (2,2) []), ((2,1), sn (0,1) []), ((2,2), sn (0,1) [])]), ((2,1), sn (2,2) [((0,0), sn (1,0) [((0,1), sn (0,0) [])]), ((0,1), sn (0,0) []), ((1,0), sn (0,0) [])]), ((2,2), sn (2,1) [((0,0), sn (0,1) []), ((0,1), sn (0,0) [((1,0), sn (0,0) [])]), ((1,0), sn (0,1) [])])]), ((2,1), sn (0,2) [((0,0), sn (2,0) []), ((0,1), sn (2,0) []), ((1,0), sn (2,0) []), ((2,0), sn (2,2) [((0,0), sn (1,0) [((0,1), sn (0,0) [])]), ((0,1), sn (0,0) []), ((1,0), sn (0,0) [])]), ((2,2), sn (2,0) [])]), ((2,2), sn (0,2) [((0,0), sn (2,0) []), ((0,1), sn (2,0) []), ((1,0), sn (2,0) []), ((2,0), sn (2,1) [((0,0), sn (0,1) []), ((0,1), sn (0,0) [((1,0), sn (0,0) [])]), ((1,0), sn (0,1) [])]), ((2,1), sn (2,0) [])])]), ((2,0), sn (1,1) [((0,0), sn (1,0) [((0,1), sn (1,2) []), ((0,2), sn (1,2) []), ((1,2), sn (0,2) [((0,1), sn (2,2) [((2,1), sn (0,0) [])]), ((2,1), sn (2,2) [((0,1), sn (0,0) [])]), ((2,2), sn (2,1) [((0,1), sn (0,0) [])])]), ((2,1), sn (1,2) []), ((2,2), sn (1,2) [])]), ((0,1), sn (0,0) [((0,2), sn (2,2) []), ((1,0), sn (2,2) []), ((1,2), sn (2,2) []), ((2,1), sn (2,2) []), ((2,2), sn (2,1) [((0,2), sn (1,2) [((1,0), sn (0,0) [])]), ((1,0), sn (0,2) [((1,2), sn (0,0) [])]), ((1,2), sn (0,2) [((1,0), sn (0,0) [])])])]), ((0,2), sn (0,1) [((0,0), sn (2,1) []), ((1,0), sn (2,1) []), ((1,2), sn (2,1) []), ((2,1), sn (2,2) [((0,0), sn (1,0) [((1,2), sn (0,0) [])]), ((1,0), sn (0,0) []), ((1,2), sn (0,0) [])]), ((2,2), sn (2,1) [])]), ((1,0), sn (0,0) [((0,1), sn (2,2) []), ((0,2), sn (2,2) []), ((1,2), sn (2,2) []), ((2,1), sn (2,2) []), ((2,2), sn (2,1) [((0,1), sn (0,2) [((1,2), sn (0,0) [])]), ((0,2), sn (0,1) []), ((1,2), sn (0,1) [])])]), ((1,2), sn (0,2) [((0,0), sn (1,0) [((0,1), sn (2,2) [((2,1), sn (0,0) [])]), ((2,1), sn (2,2) [((0,1), sn (0,0) [])]), ((2,2), sn (2,1) [((0,1), sn (0,0) [])])]), ((0,1), sn (0,0) [((1,0), sn (2,2) []), ((2,1), sn (2,2) []), ((2,2), sn (2,1) [((1,0), sn (0,0) [])])]), ((1,0), sn (0,0) [((0,1), sn (2,2) []), ((2,1), sn (0,1) []), ((2,2), sn (0,1) [])]), ((2,1), sn (2,2) [((0,0), sn (1,0) [((0,1), sn (0,0) [])]), ((0,1), sn (0,0) []), ((1,0), sn (0,0) [])]), ((2,2), sn (2,1) [((0,0), sn (0,1) []), ((0,1), sn (0,0) [((1,0), sn (0,0) [])]), ((1,0), sn (0,1) [])])]), ((2,1), sn (2,2) [((0,0), sn (1,0) [((0,1), sn (1,2) []), ((0,2), sn (1,2) []), ((1,2), sn (0,2) [((0,1), sn (0,0) [])])]), ((0,1), sn (0,0) []), ((0,2), sn (0,0) []), ((1,0), sn (0,0) []), ((1,2), sn (0,0) [])]), ((2,2), sn (2,1) [((0,0), sn (0,1) []), ((0,1), sn (0,0) [((0,2), sn (1,2) [((1,0), sn (0,0) [])]), ((1,0), sn (0,2) [((1,2), sn (0,0) [])]), ((1,2), sn (0,2) [((1,0), sn (0,0) [])])]), ((0,2), sn (0,1) []), ((1,0), sn (0,1) []), ((1,2), sn (0,1) [])])]), ((2,1), sn (1,1) [((0,0), sn (2,0) [((0,1), sn (0,2) []), ((0,2), sn (0,1) [((1,0), sn (2,2) [((1,2), sn (0,0) [])]), ((1,2), sn (2,2) [((1,0), sn (0,0) [])]), ((2,2), sn (1,2) [((1,0), sn (0,0) [])])]), ((1,0), sn (0,2) []), ((1,2), sn (0,2) []), ((2,2), sn (0,2) [])]), ((0,1), sn (0,0) [((0,2), sn (2,2) []), ((1,0), sn (2,2) []), ((1,2), sn (2,2) []), ((2,0), sn (2,2) []), ((2,2), sn (2,0) [((0,2), sn (1,0) []), ((1,0), sn (0,2) []), ((1,2), sn (0,2) [])])]), ((0,2), sn (2,0) [((0,0), sn (0,1) [((1,0), sn (2,2) [((1,2), sn (0,0) [])]), ((1,2), sn (2,2) [((1,0), sn (0,0) [])]), ((2,2), sn (1,2) [((1,0), sn (0,0) [])])]), ((0,1), sn (0,0) [((1,0), sn (2,2) []), ((1,2), sn (1,0) []), ((2,2), sn (1,0) [])]), ((1,0), sn (0,0) [((0,1), sn (2,2) []), ((1,2), sn (2,2) []), ((2,2), sn (1,2) [((0,1), sn (0,0) [])])]), ((1,2), sn (2,2) [((0,0), sn (0,1) [((1,0), sn (0,0) [])]), ((0,1), sn (0,0) []), ((1,0), sn (0,0) [])]), ((2,2), sn (1,2) [((0,0), sn (1,0) []), ((0,1), sn (1,0) []), ((1,0), sn (0,0) [((0,1), sn (0,0) [])])])]), ((1,0), sn (0,0) [((0,1), sn (2,2) []), ((0,2), sn (2,2) []), ((1,2), sn (2,2) []), ((2,0), sn (2,2) []), ((2,2), sn (2,0) [((0,1), sn (0,2) []), ((0,2), sn (1,2) [((0,1), sn (0,0) [])]), ((1,2), sn (0,2) [])])]), ((1,2), sn (0,2) [((0,0), sn (2,0) []), ((0,1), sn (2,0) []), ((1,0), sn (2,0) []), ((2,0), sn (2,2) [((0,0), sn (1,0) [((0,1), sn (0,0) [])]), ((0,1), sn (0,0) []), ((1,0), sn (0,0) [])]), ((2,2), sn (2,0) [])]), ((2,0), sn (2,2) [((0,0), sn (1,0) [((0,1), sn (1,2) []), ((0,2), sn (1,2) []), ((1,2), sn (0,2) [((0,1), sn (0,0) [])])]), ((0,1), sn (0,0) []), ((0,2), sn (0,0) []), ((1,0), sn (0,0) []), ((1,2), sn (0,0) [])]), ((2,2), sn (2,0) [((0,0), sn (0,2) []), ((0,1), sn (0,2) []), ((0,2), sn (1,2) [((0,0), sn (1,0) []), ((0,1), sn (1,0) []), ((1,0), sn (0,0) [((0,1), sn (0,0) [])])]), ((1,0), sn (0,2) []), ((1,2), sn (0,2) [])])]), ((2,2), sn (1,1) [((0,0), sn (0,1) [((0,2), sn (2,1) []), ((1,0), sn (2,1) []), ((1,2), sn (2,1) []), ((2,0), sn (2,1) []), ((2,1), sn (2,0) [((0,2), sn (1,2) [((1,0), sn (0,0) [])]), ((1,0), sn (0,2) []), ((1,2), sn (0,2) [])])]), ((0,1), sn (0,0) [((0,2), sn (1,2) [((1,0), sn (2,0) [((2,1), sn (0,0) [])]), ((2,0), sn (1,0) []), ((2,1), sn (1,0) [])]), ((1,0), sn (0,2) [((1,2), sn (2,0) []), ((2,0), sn (2,1) [((1,2), sn (0,0) [])]), ((2,1), sn (2,0) [])]), ((1,2), sn (0,2) [((1,0), sn (2,0) []), ((2,0), sn (2,1) [((1,0), sn (0,0) [])]), ((2,1), sn (2,0) [])]), ((2,0), sn (2,1) [((0,2), sn (1,2) [((1,0), sn (0,0) [])]), ((1,0), sn (0,2) [((1,2), sn (0,0) [])]), ((1,2), sn (0,2) [((1,0), sn (0,0) [])])]), ((2,1), sn (2,0) [((0,2), sn (1,0) []), ((1,0), sn (0,2) []), ((1,2), sn (0,2) [])])]), ((0,2), sn (1,2) [((0,0), sn (1,0) []), ((0,1), sn (1,0) []), ((1,0), sn (0,0) [((0,1), sn (2,0) [((2,1), sn (0,0) [])]), ((2,0), sn (2,1) [((0,1), sn (0,0) [])]), ((2,1), sn (2,0) [((0,1), sn (0,0) [])])]), ((2,0), sn (1,0) []), ((2,1), sn (1,0) [])]), ((1,0), sn (0,0) [((0,1), sn (0,2) [((1,2), sn (2,0) []), ((2,0), sn (2,1) [((1,2), sn (0,0) [])]), ((2,1), sn (2,0) [])]), ((0,2), sn (1,2) [((0,1), sn (2,0) [((2,1), sn (0,0) [])]), ((2,0), sn (2,1) [((0,1), sn (0,0) [])]), ((2,1), sn (2,0) [((0,1), sn (0,0) [])])]), ((1,2), sn (0,2) [((0,1), sn (2,0) []), ((2,0), sn (0,1) []), ((2,1), sn (0,1) [])]), ((2,0), sn (2,1) [((0,1), sn (0,2) [((1,2), sn (0,0) [])]), ((0,2), sn (0,1) []), ((1,2), sn (0,1) [])]), ((2,1), sn (2,0) [((0,1), sn (0,2) []), ((0,2), sn (1,2) [((0,1), sn (0,0) [])]), ((1,2), sn (0,2) [])])]), ((1,2), sn (0,2) [((0,0), sn (2,0) []), ((0,1), sn (2,0) []), ((1,0), sn (2,0) []), ((2,0), sn (2,1) [((0,0), sn (0,1) []), ((0,1), sn (0,0) [((1,0), sn (0,0) [])]), ((1,0), sn (0,1) [])]), ((2,1), sn (2,0) [])]), ((2,0), sn (2,1) [((0,0), sn (0,1) []), ((0,1), sn (0,0) [((0,2), sn (1,2) [((1,0), sn (0,0) [])]), ((1,0), sn (0,2) [((1,2), sn (0,0) [])]), ((1,2), sn (0,2) [((1,0), sn (0,0) [])])]), ((0,2), sn (0,1) []), ((1,0), sn (0,1) []), ((1,2), sn (0,1) [])]), ((2,1), sn (2,0) [((0,0), sn (0,2) []), ((0,1), sn (0,2) []), ((0,2), sn (1,2) [((0,0), sn (1,0) []), ((0,1), sn (1,0) []), ((1,0), sn (0,0) [((0,1), sn (0,0) [])])]), ((1,0), sn (0,2) []), ((1,2), sn (0,2) [])])])]



/-!
Pure descriptions of the three loops

Each loop of the source threads the mutable board through iterations but
always restores it; the lemmas below replace the stateful folds by pure
recursions over the scores of the "-" cells.
-/

/-- Pure form of the maximising loop: keep a strictly greater score. -/
def bestScoreMax (f : Nat × Nat → Int) : List (Nat × Nat) → Int → Int
  | [], best => best
  | rc :: rest, best =>
    if f rc > best then bestScoreMax f rest (f rc) else bestScoreMax f rest best

/-- Pure form of the minimising loop: keep a strictly smaller score. -/
def bestScoreMin (f : Nat × Nat → Int) : List (Nat × Nat) → Int → Int
  | [], best => best
  | rc :: rest, best =>
    if f rc < best then bestScoreMin f rest (f rc) else bestScoreMin f rest best

/-- Pure form of the `ai` loop: also record the move achieving the best. -/
def bestMoveRec (f : Nat × Nat → Int) :
    List (Nat × Nat) → Int → Option (Nat × Nat) → Int × Option (Nat × Nat)
  | [], best, mv => (best, mv)
  | rc :: rest, best, mv =>
    if f rc > best then bestMoveRec f rest (f rc) (some rc)
    else bestMoveRec f rest best mv

/-- The "-" cells of the board, in the row-major traversal order. -/
def emptiesOf (b : Board) : List (Nat × Nat) :=
  (positions b).filter fun rc => cellAt b rc.1 rc.2 = Cell.E

/-! Basic list and board lemmas -/

lemma list_set_getD_self {α : Type} :
    ∀ (l : List α) (n : Nat) (d : α), l.set n (l.getD n d) = l := by
  intro l
  induction l with
  | nil => intro n d; rfl
  | cons a l ih =>
    intro n d
    cases n with
    | zero => simp
    | succ n => simpa using ih n d

/-- Reverting a "-" cell to "-" leaves the board unchanged. -/
lemma setCell_revert {b : Board} {r c : Nat} (h : cellAt b r c = Cell.E) :
    setCell b r c Cell.E = b := by
  have h2 := list_set_getD_self (b.getD r []) c Cell.E
  rw [cellAt] at h
  rw [h] at h2
  rw [setCell, h2, list_set_getD_self]

/-- Writing a cell twice is the same as writing it once. -/
lemma setCell_setCell (b : Board) (r c : Nat) (v w : Cell) :
    setCell (setCell b r c v) r c w = setCell b r c w := by
  rcases Nat.lt_or_ge r b.length with h | h
  · rw [setCell, setCell, setCell]
    have hg : ((b.set r ((b.getD r []).set c v)).getD r []) = (b.getD r []).set c v := by
      rw [List.getD_eq_getElem _ _ (by simpa using h)]
      exact List.getElem_set_self _
    rw [hg, List.set_set, List.set_set]
  · have e1 : setCell b r c v = b := by
      rw [setCell]; exact List.set_eq_of_length_le h
    rw [e1]

/-- Placing a mark on a "-" cell and reverting it restores the board. -/
lemma setCell_place_revert {b : Board} {r c : Nat} (v : Cell)
    (h : cellAt b r c = Cell.E) :
    setCell (setCell b r c v) r c Cell.E = b := by
  rw [setCell_setCell, setCell_revert h]

/-- The maximising loop never changes the board it is given, provided the
recursive call does not, and computes the pure best-score recursion over
the "-" cells of the current board. -/
lemma mmFoldMax_eq {rec : Board → Int × Board} (hrec : ∀ s, (rec s).2 = s) :
    ∀ (l : List (Nat × Nat)) (best : Int) (st : Board),
      mmFoldMax rec l best st =
        (bestScoreMax (fun rc => (rec (setCell st rc.1 rc.2 Cell.O)).1)
          (l.filter fun rc => cellAt st rc.1 rc.2 = Cell.E) best, st) := by
  intro l
  induction l with
  | nil => intro best st; rfl
  | cons rc rest ih =>
    intro best st
    by_cases hc : cellAt st rc.1 rc.2 = Cell.E
    · have hst2 : setCell (rec (setCell st rc.1 rc.2 Cell.O)).2 rc.1 rc.2 Cell.E = st := by
        rw [hrec, setCell_place_revert _ hc]
      rw [mmFoldMax]
      simp only [hc, if_true, hst2]
      rw [List.filter_cons_of_pos (by simpa using hc)]
      by_cases hgt : (rec (setCell st rc.1 rc.2 Cell.O)).1 > best
      · simp only [hgt, if_true, ih, bestScoreMax, if_true]
      · simp only [hgt, if_false, ih, bestScoreMax, if_false]
    · rw [mmFoldMax]
      simp only [hc, if_false]
      rw [List.filter_cons_of_neg (by simpa using hc), ih]

/-- The minimising loop, likewise. -/
lemma mmFoldMin_eq {rec : Board → Int × Board} (hrec : ∀ s, (rec s).2 = s) :
    ∀ (l : List (Nat × Nat)) (best : Int) (st : Board),
      mmFoldMin rec l best st =
        (bestScoreMin (fun rc => (rec (setCell st rc.1 rc.2 Cell.X)).1)
          (l.filter fun rc => cellAt st rc.1 rc.2 = Cell.E) best, st) := by
  intro l
  induction l with
  | nil => intro best st; rfl
  | cons rc rest ih =>
    intro best st
    by_cases hc : cellAt st rc.1 rc.2 = Cell.E
    · have hst2 : setCell (rec (setCell st rc.1 rc.2 Cell.X)).2 rc.1 rc.2 Cell.E = st := by
        rw [hrec, setCell_place_revert _ hc]
      rw [mmFoldMin]
      simp only [hc, if_true, hst2]
      rw [List.filter_cons_of_pos (by simpa using hc)]
      by_cases hlt : (rec (setCell st rc.1 rc.2 Cell.X)).1 < best
      · simp only [hlt, if_true, ih, bestScoreMin, if_true]
      · simp only [hlt, if_false, ih, bestScoreMin, if_false]
    · rw [mmFoldMin]
      simp only [hc, if_false]
      rw [List.filter_cons_of_neg (by simpa using hc), ih]

/-- The `ai` loop, likewise. -/
lemma aiFold_eq {rec : Board → Int × Board} (hrec : ∀ s, (rec s).2 = s)
    (symbol : Cell) :
    ∀ (l : List (Nat × Nat)) (best : Int) (mv : Option (Nat × Nat)) (st : Board),
      aiFold rec symbol l best mv st =
        ((bestMoveRec (fun rc => (rec (setCell st rc.1 rc.2 symbol)).1)
          (l.filter fun rc => cellAt st rc.1 rc.2 = Cell.E) best mv).1,
         (bestMoveRec (fun rc => (rec (setCell st rc.1 rc.2 symbol)).1)
          (l.filter fun rc => cellAt st rc.1 rc.2 = Cell.E) best mv).2, st) := by
  intro l
  induction l with
  | nil => intro best mv st; rfl
  | cons rc rest ih =>
    intro best mv st
    by_cases hc : cellAt st rc.1 rc.2 = Cell.E
    · have hst2 : setCell (rec (setCell st rc.1 rc.2 symbol)).2 rc.1 rc.2 Cell.E = st := by
        rw [hrec, setCell_place_revert _ hc]
      rw [aiFold]
      simp only [hc, if_true, hst2]
      rw [List.filter_cons_of_pos (by simpa using hc)]
      by_cases hgt : (rec (setCell st rc.1 rc.2 symbol)).1 > best
      · simp only [hgt, if_true, ih, bestMoveRec, if_true]
      · simp only [hgt, if_false, ih, bestMoveRec, if_false]
    · rw [aiFold]
      simp only [hc, if_false]
      rw [List.filter_cons_of_neg (by simpa using hc), ih]

/-- Recursively, `minimax` always returns the board it was given. -/
lemma minimax_snd : ∀ (fuel : Nat) (b : Board) (depth : Nat) (mom : Bool),
    (minimax fuel b depth mom).2 = b := by
  intro fuel
  induction fuel with
  | zero =>
    intro b depth mom
    rw [minimax]
    split
    · rfl
    split
    · rfl
    split
    · rfl
    rfl
  | succ fuel ih =>
    intro b depth mom
    rw [minimax]
    split
    · rfl
    split
    · rfl
    split
    · rfl
    cases mom with
    | true =>
      simp only [if_true]
      rw [mmFoldMax_eq (fun s => ih s (depth + 1) false)]
    | false =>
      simp only [Bool.false_eq_true, if_false]
      rw [mmFoldMin_eq (fun s => ih s (depth + 1) true)]

/-- Likewise `ai` always returns the board it was given. -/
lemma ai_snd (fuel : Nat) (b : Board) (symbol : Cell) : (ai fuel b symbol).2 = b := by
  rw [ai]
  simp only [aiFold_eq (fun s => minimax_snd fuel s 0 false) symbol]

/-- Shape lemma: `game_state` returns `(False, None)` or a pair `(True, winner)` with the
winner one of the two marks. -/
lemma game_state_shape (b : Board) :
    game_state b = (false, none) ∨
    game_state b = (true, some Cell.X) ∨ game_state b = (true, some Cell.O) := by
  have h : ∀ p : Bool × Option Cell, game_state b = p →
      p = (false, none) ∨ p = (true, some Cell.X) ∨ p = (true, some Cell.O) := by
    intro p hp
    rw [game_state] at hp
    by_cases h1 : cellAt b 0 0 = Cell.X ∧ cellAt b 0 1 = Cell.X ∧ cellAt b 0 2 = Cell.X
    · rw [if_pos h1] at hp; rw [← hp]; simp
    rw [if_neg h1] at hp
    by_cases h2 : cellAt b 0 0 = Cell.O ∧ cellAt b 0 1 = Cell.O ∧ cellAt b 0 2 = Cell.O
    · rw [if_pos h2] at hp; rw [← hp]; simp
    rw [if_neg h2] at hp
    by_cases h3 : cellAt b 0 0 = Cell.X ∧ cellAt b 1 0 = Cell.X ∧ cellAt b 2 0 = Cell.X
    · rw [if_pos h3] at hp; rw [← hp]; simp
    rw [if_neg h3] at hp
    by_cases h4 : cellAt b 0 0 = Cell.O ∧ cellAt b 1 0 = Cell.O ∧ cellAt b 2 0 = Cell.O
    · rw [if_pos h4] at hp; rw [← hp]; simp
    rw [if_neg h4] at hp
    by_cases h5 : cellAt b 1 0 = Cell.X ∧ cellAt b 1 1 = Cell.X ∧ cellAt b 1 2 = Cell.X
    · rw [if_pos h5] at hp; rw [← hp]; simp
    rw [if_neg h5] at hp
    by_cases h6 : cellAt b 1 0 = Cell.O ∧ cellAt b 1 1 = Cell.O ∧ cellAt b 1 2 = Cell.O
    · rw [if_pos h6] at hp; rw [← hp]; simp
    rw [if_neg h6] at hp
    by_cases h7 : cellAt b 0 1 = Cell.X ∧ cellAt b 1 1 = Cell.X ∧ cellAt b 2 1 = Cell.X
    · rw [if_pos h7] at hp; rw [← hp]; simp
    rw [if_neg h7] at hp
    by_cases h8 : cellAt b 0 1 = Cell.O ∧ cellAt b 1 1 = Cell.O ∧ cellAt b 2 1 = Cell.O
    · rw [if_pos h8] at hp; rw [← hp]; simp
    rw [if_neg h8] at hp
    by_cases h9 : cellAt b 2 0 = Cell.X ∧ cellAt b 2 1 = Cell.X ∧ cellAt b 2 2 = Cell.X
    · rw [if_pos h9] at hp; rw [← hp]; simp
    rw [if_neg h9] at hp
    by_cases h10 : cellAt b 2 0 = Cell.O ∧ cellAt b 2 1 = Cell.O ∧ cellAt b 2 2 = Cell.O
    · rw [if_pos h10] at hp; rw [← hp]; simp
    rw [if_neg h10] at hp
    by_cases h11 : cellAt b 0 2 = Cell.X ∧ cellAt b 1 2 = Cell.X ∧ cellAt b 2 2 = Cell.X
    · rw [if_pos h11] at hp; rw [← hp]; simp
    rw [if_neg h11] at hp
    by_cases h12 : cellAt b 0 2 = Cell.O ∧ cellAt b 1 2 = Cell.O ∧ cellAt b 2 2 = Cell.O
    · rw [if_pos h12] at hp; rw [← hp]; simp
    rw [if_neg h12] at hp
    by_cases h13 : (cellAt b 0 0 = Cell.X ∧ cellAt b 1 1 = Cell.X ∧ cellAt b 2 2 = Cell.X) ∨
        (cellAt b 0 2 = Cell.X ∧ cellAt b 1 1 = Cell.X ∧ cellAt b 2 0 = Cell.X)
    · rw [if_pos h13] at hp; rw [← hp]; simp
    rw [if_neg h13] at hp
    by_cases h14 : (cellAt b 0 0 = Cell.O ∧ cellAt b 1 1 = Cell.O ∧ cellAt b 2 2 = Cell.O) ∨
        (cellAt b 0 2 = Cell.O ∧ cellAt b 1 1 = Cell.O ∧ cellAt b 2 0 = Cell.O)
    · rw [if_pos h14] at hp; rw [← hp]; simp
    rw [if_neg h14] at hp
    rw [← hp]; simp
  exact h _ rfl

/-- Terminal case: `minimax` evaluates a position already won by "X" to `-10`. -/
lemma minimax_win_X {b : Board} (h : game_state b = (true, some Cell.X))
    (fuel depth : Nat) (mom : Bool) : minimax fuel b depth mom = (-10, b) := by
  cases fuel <;> (rw [minimax, h]; simp)

/-- Terminal case: `minimax` evaluates a position already won by "O" to `10`. -/
lemma minimax_win_O {b : Board} (h : game_state b = (true, some Cell.O))
    (fuel depth : Nat) (mom : Bool) : minimax fuel b depth mom = (10, b) := by
  cases fuel <;> (rw [minimax, h]; simp)

/-- Terminal case: `minimax` evaluates a full board without a winner to `0`. -/
lemma minimax_draw {b : Board} (h1 : game_state b = (false, none))
    (h2 : board_full b = true) (fuel depth : Nat) (mom : Bool) :
    minimax fuel b depth mom = (0, b) := by
  cases fuel <;> (rw [minimax, h1, h2]; simp)

/-- On a live position, `minimax` with positive fuel is the pure best-score
recursion over the scores of the children obtained by playing each "-" cell. -/
lemma minimax_live {b : Board} (h1 : (game_state b).1 = false)
    (h2 : board_full b = false) (fuel depth : Nat) (mom : Bool) :
    minimax (fuel + 1) b depth mom =
      (if mom then
        bestScoreMax (fun rc => (minimax fuel (setCell b rc.1 rc.2 Cell.O) (depth + 1) false).1)
          (emptiesOf b) (-10000)
       else
        bestScoreMin (fun rc => (minimax fuel (setCell b rc.1 rc.2 Cell.X) (depth + 1) true).1)
          (emptiesOf b) 10000, b) := by
  rw [minimax, h2]
  simp only [h1, Bool.false_or, Bool.false_and, Bool.and_false, if_false, Bool.not_false,
    Bool.and_true]
  cases mom with
  | true =>
    simp only [if_true]
    rw [mmFoldMax_eq (fun s => minimax_snd fuel s (depth + 1) false)]
    rfl
  | false =>
    simp only [Bool.false_eq_true, if_false]
    rw [mmFoldMin_eq (fun s => minimax_snd fuel s (depth + 1) true)]
    rfl

/-- On a live position with no fuel, `minimax` returns the fallback. -/
lemma minimax_zero_live {b : Board} (h1 : (game_state b).1 = false)
    (h2 : board_full b = false) (depth : Nat) (mom : Bool) :
    minimax 0 b depth mom = (0, b) := by
  rw [minimax, h2]
  simp [h1]

/-- C2 — Board restoration: after `ai(state, player)` returns and after
`minimax(state, depth, max_or_min)` returns, the board equals its value at
the moment of the call: every speculative placement made during the search
is reverted before return, at every recursion level. -/
theorem C2_board_restoration :
    (∀ (fuel : Nat) (b : Board) (depth : Nat) (mom : Bool),
      (minimax fuel b depth mom).2 = b) ∧
    (∀ (fuel : Nat) (b : Board) (symbol : Cell), (ai fuel b symbol).2 = b) :=
  ⟨minimax_snd, ai_snd⟩

/-! Properties of the pure best-score recursions -/

lemma bestScoreMax_init_le (f : Nat × Nat → Int) :
    ∀ (l : List (Nat × Nat)) (best : Int), best ≤ bestScoreMax f l best := by
  intro l
  induction l with
  | nil => intro best; exact le_refl best
  | cons rc rest ih =>
    intro best
    rw [bestScoreMax]
    split
    · exact le_trans (le_of_lt (by assumption)) (ih (f rc))
    · exact ih best

lemma bestScoreMax_mem_le (f : Nat × Nat → Int) :
    ∀ (l : List (Nat × Nat)) (best : Int), ∀ rc ∈ l, f rc ≤ bestScoreMax f l best := by
  intro l
  induction l with
  | nil => intro best rc h; simp at h
  | cons rc0 rest ih =>
    intro best rc h
    rw [bestScoreMax]
    rcases List.mem_cons.mp h with h1 | h1
    · subst h1
      split
      · exact bestScoreMax_init_le f rest (f rc)
      · exact le_trans (not_lt.mp (by assumption)) (bestScoreMax_init_le f rest best)
    · split
      · exact ih (f rc0) rc h1
      · exact ih best rc h1

lemma bestScoreMax_achieve (f : Nat × Nat → Int) :
    ∀ (l : List (Nat × Nat)) (best : Int),
      bestScoreMax f l best = best ∨ ∃ rc ∈ l, bestScoreMax f l best = f rc := by
  intro l
  induction l with
  | nil => intro best; exact Or.inl rfl
  | cons rc0 rest ih =>
    intro best
    rw [bestScoreMax]
    split
    · rcases ih (f rc0) with h | ⟨rc, hm, he⟩
      · exact Or.inr ⟨rc0, List.mem_cons_self rc0 rest, h⟩
      · exact Or.inr ⟨rc, List.mem_cons_of_mem rc0 hm, he⟩
    · rcases ih best with h | ⟨rc, hm, he⟩
      · exact Or.inl h
      · exact Or.inr ⟨rc, List.mem_cons_of_mem rc0 hm, he⟩

lemma bestScoreMin_le_init (f : Nat × Nat → Int) :
    ∀ (l : List (Nat × Nat)) (best : Int), bestScoreMin f l best ≤ best := by
  intro l
  induction l with
  | nil => intro best; exact le_refl best
  | cons rc rest ih =>
    intro best
    rw [bestScoreMin]
    split
    · exact le_trans (ih (f rc)) (le_of_lt (by assumption))
    · exact ih best

lemma bestScoreMin_le_mem (f : Nat × Nat → Int) :
    ∀ (l : List (Nat × Nat)) (best : Int), ∀ rc ∈ l, bestScoreMin f l best ≤ f rc := by
  intro l
  induction l with
  | nil => intro best rc h; simp at h
  | cons rc0 rest ih =>
    intro best rc h
    rw [bestScoreMin]
    rcases List.mem_cons.mp h with h1 | h1
    · subst h1
      split
      · exact bestScoreMin_le_init f rest (f rc)
      · exact le_trans (bestScoreMin_le_init f rest best) (not_lt.mp (by assumption))
    · split
      · exact ih (f rc0) rc h1
      · exact ih best rc h1

lemma bestScoreMin_achieve (f : Nat × Nat → Int) :
    ∀ (l : List (Nat × Nat)) (best : Int),
      bestScoreMin f l best = best ∨ ∃ rc ∈ l, bestScoreMin f l best = f rc := by
  intro l
  induction l with
  | nil => intro best; exact Or.inl rfl
  | cons rc0 rest ih =>
    intro best
    rw [bestScoreMin]
    split
    · rcases ih (f rc0) with h | ⟨rc, hm, he⟩
      · exact Or.inr ⟨rc0, List.mem_cons_self rc0 rest, h⟩
      · exact Or.inr ⟨rc, List.mem_cons_of_mem rc0 hm, he⟩
    · rcases ih best with h | ⟨rc, hm, he⟩
      · exact Or.inl h
      · exact Or.inr ⟨rc, List.mem_cons_of_mem rc0 hm, he⟩

lemma bestScoreMax_congr {f g : Nat × Nat → Int} :
    ∀ (l : List (Nat × Nat)) (best : Int), (∀ rc ∈ l, f rc = g rc) →
      bestScoreMax f l best = bestScoreMax g l best := by
  intro l
  induction l with
  | nil => intro best _; rfl
  | cons rc0 rest ih =>
    intro best h
    rw [bestScoreMax, bestScoreMax, h rc0 (List.mem_cons_self rc0 rest)]
    have hr : ∀ rc ∈ rest, f rc = g rc := fun rc hm => h rc (List.mem_cons_of_mem rc0 hm)
    split
    · rw [ih (g rc0) hr]
    · rw [ih best hr]

lemma bestScoreMin_congr {f g : Nat × Nat → Int} :
    ∀ (l : List (Nat × Nat)) (best : Int), (∀ rc ∈ l, f rc = g rc) →
      bestScoreMin f l best = bestScoreMin g l best := by
  intro l
  induction l with
  | nil => intro best _; rfl
  | cons rc0 rest ih =>
    intro best h
    rw [bestScoreMin, bestScoreMin, h rc0 (List.mem_cons_self rc0 rest)]
    have hr : ∀ rc ∈ rest, f rc = g rc := fun rc hm => h rc (List.mem_cons_of_mem rc0 hm)
    split
    · rw [ih (g rc0) hr]
    · rw [ih best hr]

lemma bestMoveRec_fst (f : Nat × Nat → Int) :
    ∀ (l : List (Nat × Nat)) (best : Int) (mv : Option (Nat × Nat)),
      (bestMoveRec f l best mv).1 = bestScoreMax f l best := by
  intro l
  induction l with
  | nil => intro best mv; rfl
  | cons rc0 rest ih =>
    intro best mv
    rw [bestMoveRec, bestScoreMax]
    split
    · exact ih (f rc0) (some rc0)
    · exact ih best mv

/-- The `ai` loop, started on a freshly recorded move, returns the first
move of maximum score among that move and the remaining ones: the score
strictly exceeds every earlier score and is at least every later score. -/
lemma bestMoveRec_cons_decomp (f : Nat × Nat → Int) :
    ∀ (l : List (Nat × Nat)) (cur : Nat × Nat),
      ∃ m l1 l2, cur :: l = l1 ++ m :: l2 ∧
        bestMoveRec f l (f cur) (some cur) = (f m, some m) ∧
        (∀ x ∈ l1, f x < f m) ∧ (∀ x ∈ l2, f x ≤ f m) := by
  intro l
  induction l with
  | nil =>
    intro cur
    exact ⟨cur, [], [], rfl, rfl, by simp, by simp⟩
  | cons rc rest ih =>
    intro cur
    by_cases h : f rc > f cur
    · obtain ⟨m, l1, l2, hdec, hres, h1, h2⟩ := ih rc
      have hfm : f rc ≤ f m := by
        rcases l1 with _ | ⟨a, l1t⟩
        · have : rc = m := by simpa using congrArg (fun t => t.head?) hdec
          rw [this]
        · have ha : rc = a := by simpa using congrArg (fun t => t.head?) hdec
          rw [ha]
          exact le_of_lt (h1 a (List.mem_cons_self a l1t))
      refine ⟨m, cur :: l1, l2, by rw [List.cons_append, ← hdec], ?_, ?_, h2⟩
      · rw [bestMoveRec]
        simp only [h, if_true]
        exact hres
      · intro x hx
        rcases List.mem_cons.mp hx with h3 | h3
        · subst h3; exact lt_of_lt_of_le h hfm
        · exact h1 x h3
    · obtain ⟨m, l1, l2, hdec, hres, h1, h2⟩ := ih cur
      rcases l1 with _ | ⟨a, l1t⟩
      · have hm : cur = m := by simpa using congrArg (fun t => t.head?) hdec
        have hl2 : rest = l2 := by simpa using congrArg (fun t => t.tail) hdec
        refine ⟨m, [], rc :: l2, by rw [← hm, ← hl2, List.nil_append], ?_, by simp, ?_⟩
        · rw [bestMoveRec]
          simp only [h, if_false]
          exact hres
        · intro x hx
          rcases List.mem_cons.mp hx with h3 | h3
          · subst h3; rw [← hm]; exact not_lt.mp h
          · exact h2 x h3
      · have ha : cur = a := by simpa using congrArg (fun t => t.head?) hdec
        have hl : rest = l1t ++ m :: l2 := by simpa using congrArg (fun t => t.tail) hdec
        have hcur : f cur < f m := by rw [ha]; exact h1 a (List.mem_cons_self a l1t)
        refine ⟨m, cur :: rc :: l1t, l2, by rw [List.cons_append, List.cons_append, ← hl], ?_, ?_, h2⟩
        · rw [bestMoveRec]
          simp only [h, if_false]
          exact hres
        · intro x hx
          rcases List.mem_cons.mp hx with h3 | h3
          · subst h3; exact hcur
          rcases List.mem_cons.mp h3 with h4 | h4
          · subst h4; exact lt_of_le_of_lt (not_lt.mp h) hcur
          · exact h1 x (List.mem_cons_of_mem a h4)

/-! Positions, emptiness and counting -/

lemma mem_positions {b : Board} {rc : Nat × Nat} :
    rc ∈ positions b ↔ rc.1 < b.length ∧ rc.2 < (b.getD rc.1 []).length := by
  rcases rc with ⟨r, c⟩
  simp only [positions, List.mem_flatMap, List.mem_range, List.mem_map, Prod.mk.injEq]
  constructor
  · rintro ⟨a, ha, c2, hc2, h1, h2⟩
    subst h1; subst h2
    exact ⟨ha, hc2⟩
  · rintro ⟨h1, h2⟩
    exact ⟨r, h1, c, h2, rfl, rfl⟩

lemma mem_emptiesOf {b : Board} {rc : Nat × Nat} :
    rc ∈ emptiesOf b ↔ rc ∈ positions b ∧ cellAt b rc.1 rc.2 = Cell.E := by
  simp [emptiesOf, List.mem_filter]

/-- A cell at an in-range position is a member of its row. -/
lemma cellAt_mem_row {b : Board} {rc : Nat × Nat} (h : rc ∈ positions b) :
    b.getD rc.1 [] ∈ b ∧ cellAt b rc.1 rc.2 ∈ b.getD rc.1 [] := by
  obtain ⟨h1, h2⟩ := mem_positions.mp h
  constructor
  · rw [List.getD_eq_getElem _ _ h1]
    exact List.getElem_mem h1
  · rw [cellAt, List.getD_eq_getElem _ _ h2]
    exact List.getElem_mem h2

/-- A full board has no "-" position. -/
lemma board_full_no_empty {b : Board} (h : board_full b = true) :
    ∀ rc ∈ positions b, cellAt b rc.1 rc.2 ≠ Cell.E := by
  intro rc hm
  obtain ⟨hrow, hc⟩ := cellAt_mem_row hm
  rw [board_full, List.all_eq_true] at h
  have h2 := h _ hrow
  rw [List.all_eq_true] at h2
  have h3 := h2 _ hc
  simpa using h3

/-- A board that is not full has a "-" position. -/
lemma board_not_full_empty {b : Board} (h : board_full b = false) :
    ∃ rc ∈ positions b, cellAt b rc.1 rc.2 = Cell.E := by
  rw [board_full, List.all_eq_false] at h
  obtain ⟨row, hrow, hr⟩ := h
  rw [Bool.not_eq_true, List.all_eq_false] at hr
  obtain ⟨cell, hcell, hc⟩ := hr
  have hc2 : cell = Cell.E := by simpa using hc
  obtain ⟨r, hrlen, hrow2⟩ := List.mem_iff_getElem.mp hrow
  obtain ⟨c, hclen, hcell2⟩ := List.mem_iff_getElem.mp hcell
  refine ⟨(r, c), mem_positions.mpr ⟨hrlen, ?_⟩, ?_⟩
  · rw [List.getD_eq_getElem _ _ hrlen, hrow2]
    exact hclen
  · rw [cellAt, List.getD_eq_getElem _ _ hrlen]
    simp only [hrow2]
    rw [List.getD_eq_getElem _ _ hclen, hcell2]
    exact hc2

/-- A board that is not full has at least one "-" cell in the loop list. -/
lemma emptiesOf_ne_nil {b : Board} (h : board_full b = false) : emptiesOf b ≠ [] := by
  obtain ⟨rc, hm, he⟩ := board_not_full_empty h
  intro hnil
  have : rc ∈ emptiesOf b := mem_emptiesOf.mpr ⟨hm, he⟩
  rw [hnil] at this
  simp at this

/-- Destructuring a list of length three. -/
lemma len3_destruct {α : Type} {l : List α} (h : l.length = 3) :
    ∃ a b c, l = [a, b, c] := by
  rcases l with _ | ⟨a, l⟩
  · simp at h
  rcases l with _ | ⟨b, l⟩
  · simp at h
  rcases l with _ | ⟨c, l⟩
  · simp at h
  rcases l with _ | ⟨d, l⟩
  · exact ⟨a, b, c, rfl⟩
  · simp at h

/-- A well-formed board is a 3×3 matrix of cells. -/
lemma wf_destruct {b : Board} (h : WF b) :
    ∃ a00 a01 a02 a10 a11 a12 a20 a21 a22 : Cell,
      b = [[a00, a01, a02], [a10, a11, a12], [a20, a21, a22]] := by
  obtain ⟨hl, hr⟩ := h
  obtain ⟨r0, r1, r2, hb⟩ := len3_destruct hl
  subst hb
  obtain ⟨a00, a01, a02, h0⟩ := len3_destruct (hr r0 (by simp))
  obtain ⟨a10, a11, a12, h1⟩ := len3_destruct (hr r1 (by simp))
  obtain ⟨a20, a21, a22, h2⟩ := len3_destruct (hr r2 (by simp))
  subst h0; subst h1; subst h2
  exact ⟨a00, a01, a02, a10, a11, a12, a20, a21, a22, rfl⟩

/-- Writing a cell preserves well-formedness. -/
lemma WF_setCell {b : Board} (h : WF b) (r c : Nat) (v : Cell) :
    WF (setCell b r c v) := by
  obtain ⟨hl, hr⟩ := h
  rcases Nat.lt_or_ge r b.length with h2 | h2
  · constructor
    · rw [setCell, List.length_set]
      exact hl
    · intro row hrow
      rw [setCell] at hrow
      rcases List.mem_or_eq_of_mem_set hrow with h1 | h1
      · exact hr row h1
      · rw [h1, List.length_set]
        apply hr
        rw [List.getD_eq_getElem _ _ h2]
        exact List.getElem_mem h2
  · rw [setCell, List.set_eq_of_length_le h2]
    exact ⟨hl, hr⟩

/-- Setting a "-" cell of a row to a mark removes exactly one "-" from it. -/
lemma filter_E_set : ∀ (l : List Cell) (c : Nat) (v : Cell), c < l.length →
    l.getD c Cell.E = Cell.E → v ≠ Cell.E →
    ((l.set c v).filter fun x => x = Cell.E).length + 1 =
      (l.filter fun x => x = Cell.E).length := by
  intro l
  induction l with
  | nil => intro c v hc; simp at hc
  | cons a tl ih =>
    intro c v hc he hv
    cases c with
    | zero =>
      have ha : a = Cell.E := by simpa using he
      subst ha
      simp [hv]
    | succ c =>
      have hc2 : c < tl.length := by simpa using hc
      have he2 : tl.getD c Cell.E = Cell.E := by simpa using he
      by_cases hae : a = Cell.E
      · subst hae
        simp only [List.set_cons_succ, List.filter_cons]
        simp only [decide_True, if_true]
        rw [List.length_cons, List.length_cons]
        have := ih c v hc2 he2 hv
        omega
      · simp only [List.set_cons_succ, List.filter_cons]
        simp only [hae, decide_eq_true_eq, if_false]
        exact ih c v hc2 he2 hv

/-- Placing a mark on a "-" cell decreases the number of "-" cells by one. -/
lemma emptyCount_setCell : ∀ (b : Board) (r c : Nat) (v : Cell),
    r < b.length → c < (b.getD r []).length → cellAt b r c = Cell.E → v ≠ Cell.E →
    emptyCount (setCell b r c v) + 1 = emptyCount b := by
  intro b
  induction b with
  | nil => intro r c v hr; simp at hr
  | cons row tl ih =>
    intro r c v hr hc he hv
    cases r with
    | zero =>
      have hset : setCell (row :: tl) 0 c v = row.set c v :: tl := rfl
      rw [hset]
      simp only [emptyCount, List.map_cons, List.sum_cons]
      have := filter_E_set row c v (by simpa using hc) (by simpa [cellAt] using he) hv
      omega
    | succ r =>
      have hset : setCell (row :: tl) (r + 1) c v = row :: setCell tl r c v := rfl
      rw [hset]
      simp only [emptyCount, List.map_cons, List.sum_cons]
      have hr2 : r < tl.length := by simpa using hr
      have := ih r c v hr2 (by simpa [cellAt] using hc) (by simpa [cellAt] using he) hv
      simp only [emptyCount] at this
      omega

/-- A board with a "-" position has a positive "-" count. -/
lemma emptyCount_pos {b : Board} {rc : Nat × Nat} (hm : rc ∈ positions b)
    (he : cellAt b rc.1 rc.2 = Cell.E) : 0 < emptyCount b := by
  obtain ⟨hrow, hcell⟩ := cellAt_mem_row hm
  have h1 : cellAt b rc.1 rc.2 ∈ (b.getD rc.1 []).filter fun x => x = Cell.E :=
    List.mem_filter.mpr ⟨hcell, by simpa using he⟩
  have h2 : 0 < ((b.getD rc.1 []).filter fun x => x = Cell.E).length :=
    List.length_pos.mpr (List.ne_nil_of_mem h1)
  have h3 : ((b.getD rc.1 []).filter fun x => x = Cell.E).length ∈
      b.map fun row => (row.filter fun x => x = Cell.E).length :=
    List.mem_map_of_mem _ hrow
  have h4 := List.single_le_sum (l := b.map fun row => (row.filter fun x => x = Cell.E).length)
    (fun x _ => Nat.zero_le x) _ h3
  rw [emptyCount]
  omega

/-- A well-formed board has at most nine "-" cells. -/
lemma emptyCount_le_nine {b : Board} (h : WF b) : emptyCount b ≤ 9 := by
  obtain ⟨a00, a01, a02, a10, a11, a12, a20, a21, a22, hb⟩ := wf_destruct h
  subst hb
  have h0 := List.length_filter_le (fun x => decide (x = Cell.E)) [a00, a01, a02]
  have h1 := List.length_filter_le (fun x => decide (x = Cell.E)) [a10, a11, a12]
  have h2 := List.length_filter_le (fun x => decide (x = Cell.E)) [a20, a21, a22]
  simp only [emptyCount, List.map_cons, List.map_nil, List.sum_cons, List.sum_nil]
  simp only [List.length_cons, List.length_nil] at h0 h1 h2
  omega

/-- Score of `minimax` on a live maximising layer. -/
lemma minimax_live_max {b : Board} (h1 : (game_state b).1 = false)
    (h2 : board_full b = false) (fuel depth : Nat) :
    (minimax (fuel + 1) b depth true).1 =
      bestScoreMax (fun rc => (minimax fuel (setCell b rc.1 rc.2 Cell.O) (depth + 1) false).1)
        (emptiesOf b) (-10000) := by
  rw [minimax_live h1 h2]
  simp

/-- Score of `minimax` on a live minimising layer. -/
lemma minimax_live_min {b : Board} (h1 : (game_state b).1 = false)
    (h2 : board_full b = false) (fuel depth : Nat) :
    (minimax (fuel + 1) b depth false).1 =
      bestScoreMin (fun rc => (minimax fuel (setCell b rc.1 rc.2 Cell.X) (depth + 1) true).1)
        (emptiesOf b) 10000 := by
  rw [minimax_live h1 h2]
  simp

/-- Every `minimax` score lies between the two winning scores. -/
lemma minimax_range : ∀ (fuel : Nat) (b : Board) (depth : Nat) (mom : Bool),
    -10 ≤ (minimax fuel b depth mom).1 ∧ (minimax fuel b depth mom).1 ≤ 10 := by
  intro fuel
  induction fuel with
  | zero =>
    intro b depth mom
    rcases game_state_shape b with h | h | h
    · cases hf : board_full b with
      | true => rw [minimax_draw h hf]; norm_num
      | false => rw [minimax_zero_live (by rw [h]) hf]; norm_num
    · rw [minimax_win_X h]; norm_num
    · rw [minimax_win_O h]; norm_num
  | succ fuel ih =>
    intro b depth mom
    rcases game_state_shape b with h | h | h
    · cases hf : board_full b with
      | true => rw [minimax_draw h hf]; norm_num
      | false =>
        obtain ⟨rc0, hrc0⟩ := List.exists_mem_of_ne_nil _ (emptiesOf_ne_nil hf)
        cases mom with
        | true =>
          rw [minimax_live_max (by rw [h]) hf]
          rcases bestScoreMax_achieve
              (fun rc => (minimax fuel (setCell b rc.1 rc.2 Cell.O) (depth + 1) false).1)
              (emptiesOf b) (-10000) with hach | ⟨rc, _, hach⟩
          · have hle := bestScoreMax_mem_le
              (fun rc => (minimax fuel (setCell b rc.1 rc.2 Cell.O) (depth + 1) false).1)
              (emptiesOf b) (-10000) rc0 hrc0
            have hr := ih (setCell b rc0.1 rc0.2 Cell.O) (depth + 1) false
            rw [hach] at hle
            have hle2 : (minimax fuel (setCell b rc0.1 rc0.2 Cell.O) (depth + 1) false).1 ≤ -10000 := hle
            omega
          · rw [hach]
            exact ih _ (depth + 1) false
        | false =>
          rw [minimax_live_min (by rw [h]) hf]
          rcases bestScoreMin_achieve
              (fun rc => (minimax fuel (setCell b rc.1 rc.2 Cell.X) (depth + 1) true).1)
              (emptiesOf b) 10000 with hach | ⟨rc, _, hach⟩
          · have hle := bestScoreMin_le_mem
              (fun rc => (minimax fuel (setCell b rc.1 rc.2 Cell.X) (depth + 1) true).1)
              (emptiesOf b) 10000 rc0 hrc0
            have hr := ih (setCell b rc0.1 rc0.2 Cell.X) (depth + 1) true
            rw [hach] at hle
            have hle2 : (10000 : Int) ≤ (minimax fuel (setCell b rc0.1 rc0.2 Cell.X) (depth + 1) true).1 := hle
            omega
          · rw [hach]
            exact ih _ (depth + 1) true
    · rw [minimax_win_X h]; norm_num
    · rw [minimax_win_O h]; norm_num

/-- The `depth` argument has no influence on the result of `minimax`. -/
lemma minimax_depth_irrel : ∀ (fuel : Nat) (b : Board) (d1 d2 : Nat) (mom : Bool),
    minimax fuel b d1 mom = minimax fuel b d2 mom := by
  intro fuel
  induction fuel with
  | zero =>
    intro b d1 d2 mom
    rcases game_state_shape b with h | h | h
    · cases hf : board_full b with
      | true => rw [minimax_draw h hf, minimax_draw h hf]
      | false => rw [minimax_zero_live (by rw [h]) hf, minimax_zero_live (by rw [h]) hf]
    · rw [minimax_win_X h, minimax_win_X h]
    · rw [minimax_win_O h, minimax_win_O h]
  | succ fuel ih =>
    intro b d1 d2 mom
    rcases game_state_shape b with h | h | h
    · cases hf : board_full b with
      | true => rw [minimax_draw h hf, minimax_draw h hf]
      | false =>
        rw [Prod.ext_iff]
        refine ⟨?_, by rw [minimax_snd, minimax_snd]⟩
        cases mom with
        | true =>
          rw [minimax_live_max (by rw [h]) hf, minimax_live_max (by rw [h]) hf]
          exact bestScoreMax_congr _ _
            (fun rc _ => congrArg Prod.fst (ih _ (d1 + 1) (d2 + 1) false))
        | false =>
          rw [minimax_live_min (by rw [h]) hf, minimax_live_min (by rw [h]) hf]
          exact bestScoreMin_congr _ _
            (fun rc _ => congrArg Prod.fst (ih _ (d1 + 1) (d2 + 1) true))
    · rw [minimax_win_X h, minimax_win_X h]
    · rw [minimax_win_O h, minimax_win_O h]

/-- Any fuel of at least the number of "-" cells gives the same result:
this is the stabilisation form of the termination argument, the measure
being exactly the strictly decreasing number of "-" cells. -/
lemma minimax_fuel_irrel : ∀ (n : Nat) (b : Board), emptyCount b = n →
    ∀ (d : Nat) (mom : Bool) (f1 f2 : Nat), n ≤ f1 → n ≤ f2 →
      minimax f1 b d mom = minimax f2 b d mom := by
  intro n
  induction n with
  | zero =>
    intro b hn d mom f1 f2 _ _
    rcases game_state_shape b with h | h | h
    · cases hf : board_full b with
      | true => rw [minimax_draw h hf, minimax_draw h hf]
      | false =>
        obtain ⟨rc, hm, he⟩ := board_not_full_empty hf
        have := emptyCount_pos hm he
        omega
    · rw [minimax_win_X h, minimax_win_X h]
    · rw [minimax_win_O h, minimax_win_O h]
  | succ n ih =>
    intro b hn d mom f1 f2 h1 h2
    rcases game_state_shape b with h | h | h
    · cases hf : board_full b with
      | true => rw [minimax_draw h hf, minimax_draw h hf]
      | false =>
        obtain ⟨g1, rfl⟩ : ∃ g1, f1 = g1 + 1 := ⟨f1 - 1, by omega⟩
        obtain ⟨g2, rfl⟩ : ∃ g2, f2 = g2 + 1 := ⟨f2 - 1, by omega⟩
        rw [Prod.ext_iff]
        refine ⟨?_, by rw [minimax_snd, minimax_snd]⟩
        cases mom with
        | true =>
          rw [minimax_live_max (by rw [h]) hf, minimax_live_max (by rw [h]) hf]
          refine bestScoreMax_congr _ _ (fun rc hrc => ?_)
          obtain ⟨hpos, hE⟩ := mem_emptiesOf.mp hrc
          obtain ⟨hr, hc⟩ := mem_positions.mp hpos
          have hec : emptyCount (setCell b rc.1 rc.2 Cell.O) = n := by
            have := emptyCount_setCell b rc.1 rc.2 Cell.O hr hc hE (by decide)
            omega
          exact congrArg Prod.fst (ih _ hec _ _ _ _ (by omega) (by omega))
        | false =>
          rw [minimax_live_min (by rw [h]) hf, minimax_live_min (by rw [h]) hf]
          refine bestScoreMin_congr _ _ (fun rc hrc => ?_)
          obtain ⟨hpos, hE⟩ := mem_emptiesOf.mp hrc
          obtain ⟨hr, hc⟩ := mem_positions.mp hpos
          have hec : emptyCount (setCell b rc.1 rc.2 Cell.X) = n := by
            have := emptyCount_setCell b rc.1 rc.2 Cell.X hr hc hE (by decide)
            omega
          exact congrArg Prod.fst (ih _ hec _ _ _ _ (by omega) (by omega))
    · rw [minimax_win_X h, minimax_win_X h]
    · rw [minimax_win_O h, minimax_win_O h]

/-- C9 — Termination: for every board, the recursion of `minimax` is
well-founded on the strictly decreasing count of "-" cells; in the fuelled
embedding, every fuel of at least `emptyCount b` returns the very result of
the canonical run with fuel `emptyCount b`, for all depths and both modes. -/
theorem C9_minimax_terminates (b : Board) (depth : Nat) (mom : Bool) (fuel : Nat)
    (h : emptyCount b ≤ fuel) :
    minimax fuel b depth mom = minimax (emptyCount b) b depth mom :=
  minimax_fuel_irrel (emptyCount b) b rfl depth mom fuel (emptyCount b) h (le_refl _)

/-- Witness for the termination theorem at a concrete input. -/
theorem C9_minimax_terminates_witness :
    emptyCount [[Cell.X, Cell.O, Cell.X], [Cell.O, Cell.X, Cell.O], [Cell.O, Cell.X, Cell.E]] ≤ 9 ∧
    minimax 9 [[Cell.X, Cell.O, Cell.X], [Cell.O, Cell.X, Cell.O], [Cell.O, Cell.X, Cell.E]] 0 true =
      minimax (emptyCount [[Cell.X, Cell.O, Cell.X], [Cell.O, Cell.X, Cell.O], [Cell.O, Cell.X, Cell.E]])
        [[Cell.X, Cell.O, Cell.X], [Cell.O, Cell.X, Cell.O], [Cell.O, Cell.X, Cell.E]] 0 true :=
  ⟨by decide, C9_minimax_terminates _ 0 true 9 (by decide)⟩

/-- The score `ai` computes for a candidate "-" cell: place the symbol
there and run `minimax(state, 0, False)`. -/
def scoreOf (fuel : Nat) (b : Board) (symbol : Cell) (rc : Nat × Nat) : Int :=
  (minimax fuel (setCell b rc.1 rc.2 symbol) 0 false).1

/-- Rewriting `ai` in pure form: the recorded best move of the pure recursion over
the "-" cells, together with the unchanged board. -/
lemma ai_eq (fuel : Nat) (b : Board) (symbol : Cell) :
    ai fuel b symbol =
      ((bestMoveRec (scoreOf fuel b symbol) (emptiesOf b) (-10000) none).2, b) := by
  rw [ai]
  simp only [aiFold_eq (fun s => minimax_snd fuel s 0 false) symbol]
  rfl

/-- What `ai` returns on a board with at least one "-" cell: the first
"-" cell (in row-major order) of maximal score.  Its score strictly exceeds
the score of every earlier "-" cell and is at least the score of every
later one. -/
lemma ai_spec (fuel : Nat) (b : Board) (symbol : Cell)
    (hne : board_full b = false) :
    ∃ m l1 l2, emptiesOf b = l1 ++ m :: l2 ∧
      (ai fuel b symbol).1 = some m ∧
      scoreOf fuel b symbol m = bestScoreMax (scoreOf fuel b symbol) (emptiesOf b) (-10000) ∧
      (∀ x ∈ l1, scoreOf fuel b symbol x < scoreOf fuel b symbol m) ∧
      (∀ x ∈ l2, scoreOf fuel b symbol x ≤ scoreOf fuel b symbol m) := by
  obtain ⟨rc0, rest, hl⟩ := List.exists_cons_of_ne_nil (emptiesOf_ne_nil hne)
  have hgt : scoreOf fuel b symbol rc0 > -10000 := by
    have := (minimax_range fuel (setCell b rc0.1 rc0.2 symbol) 0 false).1
    rw [scoreOf]
    omega
  obtain ⟨m, l1, l2, hdec, hres, h1, h2⟩ :=
    bestMoveRec_cons_decomp (scoreOf fuel b symbol) rest rc0
  have hstep : bestMoveRec (scoreOf fuel b symbol) (emptiesOf b) (-10000) none =
      (scoreOf fuel b symbol m, some m) := by
    rw [hl, bestMoveRec]
    simp only [hgt, if_true]
    exact hres
  refine ⟨m, l1, l2, by rw [hl, hdec], ?_, ?_, h1, h2⟩
  · rw [ai_eq, hstep]
  · have := bestMoveRec_fst (scoreOf fuel b symbol) (emptiesOf b) (-10000) none
    rw [hstep] at this
    simpa using this

/-- In a well-formed board every row has length three. -/
lemma WF_row_len {b : Board} (h : WF b) {r : Nat} (hr : r < b.length) :
    (b.getD r []).length = 3 := by
  rw [List.getD_eq_getElem _ _ hr]
  exact h.2 _ (List.getElem_mem hr)

/-- C3 — Termination and coverage: on every non-terminal well-formed board
(no winner, not full), `ai(state, player)` returns a coordinate pair
`(row, col)` with both components in `[0, 2]` naming a cell that holds "-"
at the time of the call. -/
theorem C3_ai_returns_empty_cell (fuel : Nat) (b : Board) (symbol : Cell)
    (hwf : WF b) (hgs : (game_state b).1 = false) (hf : board_full b = false) :
    ∃ r c, (ai fuel b symbol).1 = some (r, c) ∧ r ≤ 2 ∧ c ≤ 2 ∧ cellAt b r c = Cell.E := by
  obtain ⟨m, l1, l2, hdec, hret, _, _, _⟩ := ai_spec fuel b symbol hf
  have hmem : m ∈ emptiesOf b := by
    rw [hdec]
    exact List.mem_append_right l1 (List.mem_cons_self m l2)
  obtain ⟨hpos, hE⟩ := mem_emptiesOf.mp hmem
  obtain ⟨hr, hc⟩ := mem_positions.mp hpos
  refine ⟨m.1, m.2, by rw [hret], ?_, ?_, hE⟩
  · rw [hwf.1] at hr
    omega
  · rw [WF_row_len hwf (by rw [hwf.1] at hr ⊢; omega)] at hc
    omega

/-- Witness for C3 at the empty board. -/
theorem C3_ai_returns_empty_cell_witness :
    WF emptyBoard ∧ (game_state emptyBoard).1 = false ∧ board_full emptyBoard = false ∧
    ∃ r c, (ai 0 emptyBoard Cell.O).1 = some (r, c) ∧ r ≤ 2 ∧ c ≤ 2 ∧
      cellAt emptyBoard r c = Cell.E :=
  ⟨by decide, by decide, by decide,
    C3_ai_returns_empty_cell 0 emptyBoard Cell.O (by decide) (by decide) (by decide)⟩

/-- C4 — Optimal choice with row-major tie-break: on every non-terminal
well-formed board, `ai` returns the first "-" cell in row-major order whose
score (place the symbol, then `minimax(state, 0, False)`) attains the
maximum over all "-" cells: every earlier "-" cell scores strictly less,
every later one at most as much. -/
theorem C4_ai_first_maximum (fuel : Nat) (b : Board) (symbol : Cell)
    (hwf : WF b) (hgs : (game_state b).1 = false) (hf : board_full b = false) :
    ∃ m l1 l2, emptiesOf b = l1 ++ m :: l2 ∧
      (ai fuel b symbol).1 = some m ∧
      (∀ x ∈ emptiesOf b, scoreOf fuel b symbol x ≤ scoreOf fuel b symbol m) ∧
      (∀ x ∈ l1, scoreOf fuel b symbol x < scoreOf fuel b symbol m) ∧
      (∀ x ∈ l2, scoreOf fuel b symbol x ≤ scoreOf fuel b symbol m) := by
  obtain ⟨m, l1, l2, hdec, hret, hmax, h1, h2⟩ := ai_spec fuel b symbol hf
  refine ⟨m, l1, l2, hdec, hret, ?_, h1, h2⟩
  intro x hx
  rw [hmax]
  exact bestScoreMax_mem_le _ _ _ x hx

/-- Witness for C4 at the empty board. -/
theorem C4_ai_first_maximum_witness :
    WF emptyBoard ∧ (game_state emptyBoard).1 = false ∧ board_full emptyBoard = false ∧
    ∃ m l1 l2, emptiesOf emptyBoard = l1 ++ m :: l2 ∧
      (ai 0 emptyBoard Cell.O).1 = some m ∧
      (∀ x ∈ emptiesOf emptyBoard, scoreOf 0 emptyBoard Cell.O x ≤ scoreOf 0 emptyBoard Cell.O m) ∧
      (∀ x ∈ l1, scoreOf 0 emptyBoard Cell.O x < scoreOf 0 emptyBoard Cell.O m) ∧
      (∀ x ∈ l2, scoreOf 0 emptyBoard Cell.O x ≤ scoreOf 0 emptyBoard Cell.O m) :=
  ⟨by decide, by decide, by decide,
    C4_ai_first_maximum 0 emptyBoard Cell.O (by decide) (by decide) (by decide)⟩

/-- C10 — On a full board the `ai` loop body never runs, `best_move` stays
unassigned (a `NameError` in Python), so `ai` yields no move. -/
theorem C10_ai_full_board_none (fuel : Nat) (b : Board) (symbol : Cell)
    (h : board_full b = true) : (ai fuel b symbol).1 = none := by
  have hnil : emptiesOf b = [] := by
    rw [emptiesOf, List.filter_eq_nil_iff]
    intro rc hrc
    simpa using board_full_no_empty h rc hrc
  rw [ai_eq, hnil]
  rfl

/-- Witness for C10 at a concrete full board. -/
theorem C10_ai_full_board_none_witness :
    board_full [[Cell.X, Cell.O, Cell.X], [Cell.O, Cell.X, Cell.O], [Cell.O, Cell.X, Cell.X]] = true ∧
    (ai 2 [[Cell.X, Cell.O, Cell.X], [Cell.O, Cell.X, Cell.O], [Cell.O, Cell.X, Cell.X]] Cell.O).1 = none :=
  ⟨by decide, C10_ai_full_board_none 2 _ Cell.O (by decide)⟩

/-- Predicate for three in a winning line: the eight lines of the spec (three rows,
three columns, two diagonals) filled with the given mark. -/
def winLine (b : Board) (m : Cell) : Prop :=
  (cellAt b 0 0 = m ∧ cellAt b 0 1 = m ∧ cellAt b 0 2 = m) ∨
  (cellAt b 1 0 = m ∧ cellAt b 1 1 = m ∧ cellAt b 1 2 = m) ∨
  (cellAt b 2 0 = m ∧ cellAt b 2 1 = m ∧ cellAt b 2 2 = m) ∨
  (cellAt b 0 0 = m ∧ cellAt b 1 0 = m ∧ cellAt b 2 0 = m) ∨
  (cellAt b 0 1 = m ∧ cellAt b 1 1 = m ∧ cellAt b 2 1 = m) ∨
  (cellAt b 0 2 = m ∧ cellAt b 1 2 = m ∧ cellAt b 2 2 = m) ∨
  (cellAt b 0 0 = m ∧ cellAt b 1 1 = m ∧ cellAt b 2 2 = m) ∨
  (cellAt b 0 2 = m ∧ cellAt b 1 1 = m ∧ cellAt b 2 0 = m)

instance (b : Board) (m : Cell) : Decidable (winLine b m) := by
  rw [winLine]
  infer_instance

/-- A board with no completed line evaluates to `(False, None)`. -/
lemma game_state_noline {b : Board} (hX : ¬winLine b Cell.X) (hO : ¬winLine b Cell.O) :
    game_state b = (false, none) := by
  simp only [winLine, not_or] at hX hO
  obtain ⟨x1, x2, x3, x4, x5, x6, x7, x8⟩ := hX
  obtain ⟨o1, o2, o3, o4, o5, o6, o7, o8⟩ := hO
  rw [game_state, if_neg x1, if_neg o1, if_neg x4, if_neg o4, if_neg x2, if_neg o2,
    if_neg x5, if_neg o5, if_neg x3, if_neg o3, if_neg x6, if_neg o6,
    if_neg (not_or.mpr ⟨x7, x8⟩), if_neg (not_or.mpr ⟨o7, o8⟩)]

/-- A board with an "X" line and no "O" line evaluates to `(True, 'X')`. -/
lemma game_state_xline {b : Board} (hX : winLine b Cell.X) (hO : ¬winLine b Cell.O) :
    game_state b = (true, some Cell.X) := by
  simp only [winLine, not_or] at hO
  obtain ⟨o1, o2, o3, o4, o5, o6, o7, o8⟩ := hO
  rw [game_state]
  by_cases x1 : cellAt b 0 0 = Cell.X ∧ cellAt b 0 1 = Cell.X ∧ cellAt b 0 2 = Cell.X
  · rw [if_pos x1]
  rw [if_neg x1, if_neg o1]
  by_cases x4 : cellAt b 0 0 = Cell.X ∧ cellAt b 1 0 = Cell.X ∧ cellAt b 2 0 = Cell.X
  · rw [if_pos x4]
  rw [if_neg x4, if_neg o4]
  by_cases x2 : cellAt b 1 0 = Cell.X ∧ cellAt b 1 1 = Cell.X ∧ cellAt b 1 2 = Cell.X
  · rw [if_pos x2]
  rw [if_neg x2, if_neg o2]
  by_cases x5 : cellAt b 0 1 = Cell.X ∧ cellAt b 1 1 = Cell.X ∧ cellAt b 2 1 = Cell.X
  · rw [if_pos x5]
  rw [if_neg x5, if_neg o5]
  by_cases x3 : cellAt b 2 0 = Cell.X ∧ cellAt b 2 1 = Cell.X ∧ cellAt b 2 2 = Cell.X
  · rw [if_pos x3]
  rw [if_neg x3, if_neg o3]
  by_cases x6 : cellAt b 0 2 = Cell.X ∧ cellAt b 1 2 = Cell.X ∧ cellAt b 2 2 = Cell.X
  · rw [if_pos x6]
  rw [if_neg x6, if_neg o6]
  by_cases x78 : (cellAt b 0 0 = Cell.X ∧ cellAt b 1 1 = Cell.X ∧ cellAt b 2 2 = Cell.X) ∨
      (cellAt b 0 2 = Cell.X ∧ cellAt b 1 1 = Cell.X ∧ cellAt b 2 0 = Cell.X)
  · rw [if_pos x78]
  · exfalso
    rw [winLine] at hX
    rcases hX with h | h | h | h | h | h | h | h
    · exact x1 h
    · exact x2 h
    · exact x3 h
    · exact x4 h
    · exact x5 h
    · exact x6 h
    · exact x78 (Or.inl h)
    · exact x78 (Or.inr h)

/-- A board with an "O" line and no "X" line evaluates to `(True, 'O')`. -/
lemma game_state_oline {b : Board} (hO : winLine b Cell.O) (hX : ¬winLine b Cell.X) :
    game_state b = (true, some Cell.O) := by
  simp only [winLine, not_or] at hX
  obtain ⟨x1, x2, x3, x4, x5, x6, x7, x8⟩ := hX
  rw [game_state, if_neg x1]
  by_cases o1 : cellAt b 0 0 = Cell.O ∧ cellAt b 0 1 = Cell.O ∧ cellAt b 0 2 = Cell.O
  · rw [if_pos o1]
  rw [if_neg o1, if_neg x4]
  by_cases o4 : cellAt b 0 0 = Cell.O ∧ cellAt b 1 0 = Cell.O ∧ cellAt b 2 0 = Cell.O
  · rw [if_pos o4]
  rw [if_neg o4, if_neg x2]
  by_cases o2 : cellAt b 1 0 = Cell.O ∧ cellAt b 1 1 = Cell.O ∧ cellAt b 1 2 = Cell.O
  · rw [if_pos o2]
  rw [if_neg o2, if_neg x5]
  by_cases o5 : cellAt b 0 1 = Cell.O ∧ cellAt b 1 1 = Cell.O ∧ cellAt b 2 1 = Cell.O
  · rw [if_pos o5]
  rw [if_neg o5, if_neg x3]
  by_cases o3 : cellAt b 2 0 = Cell.O ∧ cellAt b 2 1 = Cell.O ∧ cellAt b 2 2 = Cell.O
  · rw [if_pos o3]
  rw [if_neg o3, if_neg x6]
  by_cases o6 : cellAt b 0 2 = Cell.O ∧ cellAt b 1 2 = Cell.O ∧ cellAt b 2 2 = Cell.O
  · rw [if_pos o6]
  rw [if_neg o6, if_neg (not_or.mpr ⟨x7, x8⟩)]
  by_cases o78 : (cellAt b 0 0 = Cell.O ∧ cellAt b 1 1 = Cell.O ∧ cellAt b 2 2 = Cell.O) ∨
      (cellAt b 0 2 = Cell.O ∧ cellAt b 1 1 = Cell.O ∧ cellAt b 2 0 = Cell.O)
  · rw [if_pos o78]
  · exfalso
    rw [winLine] at hO
    rcases hO with h | h | h | h | h | h | h | h
    · exact o1 h
    · exact o2 h
    · exact o3 h
    · exact o4 h
    · exact o5 h
    · exact o6 h
    · exact o78 (Or.inl h)
    · exact o78 (Or.inr h)

/-- The board with two complete lines used to refute C5 as stated:
"O" owns the top row, "X" the middle row. -/
def dblBoard : Board :=
  [[Cell.O, Cell.O, Cell.O], [Cell.X, Cell.X, Cell.X], [Cell.E, Cell.E, Cell.E]]

/-- C5 counterexample — the claim "minimax returns -10 on every board
containing three 'X' in a winning line (for every depth and mode)" fails:
this board contains an "X" line, yet `minimax` returns `10`, because
`game_state` finds the "O" row first in its fixed check order. -/
theorem C5_counterexample :
    winLine dblBoard Cell.X ∧ minimax 9 dblBoard 0 true = (10, dblBoard) ∧
      (10 : Int) ≠ -10 := by
  refine ⟨by decide, ?_, by decide⟩
  have h : game_state dblBoard = (true, some Cell.O) := by decide
  exact minimax_win_O h 9 0 true

/-- C5 (amended) — Terminal scoring exactness: for every fuel, depth and
mode, `minimax` returns `-10` on a board with an "X" line and no "O" line,
`10` on a board with an "O" line and no "X" line, and `0` on a full board
with no line; the terminal check precedes the layer logic, so neither
`depth` nor `max_or_min` (nor the fuel) influences these values. -/
theorem C5_terminal_scores :
    (∀ (b : Board) (fuel depth : Nat) (mom : Bool), winLine b Cell.X → ¬winLine b Cell.O →
      minimax fuel b depth mom = (-10, b)) ∧
    (∀ (b : Board) (fuel depth : Nat) (mom : Bool), winLine b Cell.O → ¬winLine b Cell.X →
      minimax fuel b depth mom = (10, b)) ∧
    (∀ (b : Board) (fuel depth : Nat) (mom : Bool), board_full b = true →
      ¬winLine b Cell.X → ¬winLine b Cell.O → minimax fuel b depth mom = (0, b)) := by
  refine ⟨?_, ?_, ?_⟩
  · intro b fuel depth mom hX hO
    exact minimax_win_X (game_state_xline hX hO) fuel depth mom
  · intro b fuel depth mom hO hX
    exact minimax_win_O (game_state_oline hO hX) fuel depth mom
  · intro b fuel depth mom hfull hX hO
    exact minimax_draw (game_state_noline hX hO) hfull fuel depth mom

/-- Witness for the amended C5 at concrete boards. -/
theorem C5_terminal_scores_witness :
    minimax 7 [[Cell.X, Cell.X, Cell.X], [Cell.E, Cell.E, Cell.E], [Cell.O, Cell.O, Cell.E]] 3 true =
      (-10, [[Cell.X, Cell.X, Cell.X], [Cell.E, Cell.E, Cell.E], [Cell.O, Cell.O, Cell.E]]) ∧
    minimax 7 [[Cell.O, Cell.O, Cell.O], [Cell.E, Cell.E, Cell.E], [Cell.X, Cell.X, Cell.E]] 3 false =
      (10, [[Cell.O, Cell.O, Cell.O], [Cell.E, Cell.E, Cell.E], [Cell.X, Cell.X, Cell.E]]) ∧
    minimax 7 [[Cell.X, Cell.O, Cell.X], [Cell.O, Cell.X, Cell.O], [Cell.O, Cell.X, Cell.O]] 3 true =
      (0, [[Cell.X, Cell.O, Cell.X], [Cell.O, Cell.X, Cell.O], [Cell.O, Cell.X, Cell.O]]) :=
  ⟨C5_terminal_scores.1 _ 7 3 true (by decide) (by decide),
   C5_terminal_scores.2.1 _ 7 3 false (by decide) (by decide),
   C5_terminal_scores.2.2 _ 7 3 true (by decide) (by decide) (by decide)⟩

/-- The eight boards holding exactly one full line of the mark `m` and "-"
everywhere else. -/
def lineBoards (m : Cell) : List Board :=
  [[[m, m, m], [Cell.E, Cell.E, Cell.E], [Cell.E, Cell.E, Cell.E]],
   [[Cell.E, Cell.E, Cell.E], [m, m, m], [Cell.E, Cell.E, Cell.E]],
   [[Cell.E, Cell.E, Cell.E], [Cell.E, Cell.E, Cell.E], [m, m, m]],
   [[m, Cell.E, Cell.E], [m, Cell.E, Cell.E], [m, Cell.E, Cell.E]],
   [[Cell.E, m, Cell.E], [Cell.E, m, Cell.E], [Cell.E, m, Cell.E]],
   [[Cell.E, Cell.E, m], [Cell.E, Cell.E, m], [Cell.E, Cell.E, m]],
   [[m, Cell.E, Cell.E], [Cell.E, m, Cell.E], [Cell.E, Cell.E, m]],
   [[Cell.E, Cell.E, m], [Cell.E, m, Cell.E], [m, Cell.E, Cell.E]]]

/-- C6 — Win-line completeness: for each of the eight winning lines and
each of the two marks, `game_state` on the board holding exactly that line
returns `(True, mark)`; and on any board with no completed line it returns
`(False, None)`. -/
theorem C6_win_line_completeness :
    (∀ m : Cell, m ≠ Cell.E → ∀ lb ∈ lineBoards m, game_state lb = (true, some m)) ∧
    (∀ b : Board, ¬winLine b Cell.X → ¬winLine b Cell.O → game_state b = (false, none)) :=
  ⟨by decide, fun _ => game_state_noline⟩

/-- Witness for C6: the top-row "X" board and the empty board. -/
theorem C6_win_line_completeness_witness :
    game_state [[Cell.X, Cell.X, Cell.X], [Cell.E, Cell.E, Cell.E], [Cell.E, Cell.E, Cell.E]] =
      (true, some Cell.X) ∧
    game_state emptyBoard = (false, none) :=
  ⟨C6_win_line_completeness.1 Cell.X (by decide) _ (by decide),
   C6_win_line_completeness.2 emptyBoard (by decide) (by decide)⟩

/-- C7 — Known endgame: with "O" to move on this board, `ai` completes the
winning top row at `(0, 2)`. -/
theorem C7_ai_takes_win :
    (ai 9 [[Cell.O, Cell.O, Cell.E], [Cell.X, Cell.X, Cell.E], [Cell.E, Cell.E, Cell.E]] Cell.O).1 =
      some (0, 2) := by
  decide

/-- C8 — Known endgame: the only open cell of this board is `(2, 2)`;
placing the "O" of the mover there yields a draw: no winner and a full board.
(Placing "X" instead would win for "X" on the main diagonal, so the draw
outcome described by the spec is the "O" placement.) -/
theorem C8_draw_after_last_move :
    game_state (setCell [[Cell.X, Cell.O, Cell.X], [Cell.O, Cell.X, Cell.O], [Cell.O, Cell.X, Cell.E]] 2 2 Cell.O) =
      (false, none) ∧
    board_full (setCell [[Cell.X, Cell.O, Cell.X], [Cell.O, Cell.X, Cell.O], [Cell.O, Cell.X, Cell.E]] 2 2 Cell.O) =
      true := by
  constructor
  · decide
  · decide

/-- Soundness of the "X to move" check: if every reply is covered by a
sound continuation check, the minimising `minimax` value is non-negative. -/
lemma certXStep_sound {rec : Board → STree → Bool}
    (hrec : ∀ (b2 : Board) (t2 : STree), WF b2 → rec b2 t2 = true →
      ∀ (f d : Nat), emptyCount b2 ≤ f → 0 ≤ (minimax f b2 d true).1) :
    ∀ (b : Board) (l : List ((Nat × Nat) × STree)), WF b → certXStep rec b l = true →
      ∀ (f d : Nat), emptyCount b ≤ f → 0 ≤ (minimax f b d false).1 := by
  intro b l hwf hc f d hf
  rcases game_state_shape b with h | h | h
  · cases hfull : board_full b with
    | true => rw [minimax_draw h hfull]
    | false =>
      obtain ⟨rc0, hm0, he0⟩ := board_not_full_empty hfull
      have hpos := emptyCount_pos hm0 he0
      obtain ⟨g, rfl⟩ : ∃ g, f = g + 1 := ⟨f - 1, by omega⟩
      rw [minimax_live_min (by rw [h]) hfull]
      rcases bestScoreMin_achieve
          (fun rc => (minimax g (setCell b rc.1 rc.2 Cell.X) (d + 1) true).1)
          (emptiesOf b) 10000 with hach | ⟨rc, hmem, hach⟩
      · rw [hach]; norm_num
      · rw [hach]
        obtain ⟨hposrc, hErc⟩ := mem_emptiesOf.mp hmem
        rw [certXStep] at hc
        rw [h] at hc
        simp only [hfull] at hc
        rw [if_neg (by simp)] at hc
        rw [if_neg (by simp)] at hc
        rw [List.all_eq_true] at hc
        have h2 := hc rc hposrc
        have hcp : check_pos b rc.1 rc.2 = true := by rw [check_pos, if_pos hErc]
        rw [hcp] at h2
        simp only [Bool.not_true, Bool.false_or] at h2
        cases hlook : lookupMove rc l with
        | none => rw [hlook] at h2; simp at h2
        | some t2 =>
          rw [hlook] at h2
          apply hrec _ t2 (WF_setCell hwf _ _ _) h2 g (d + 1)
          obtain ⟨hr2, hc2⟩ := mem_positions.mp hposrc
          have := emptyCount_setCell b rc.1 rc.2 Cell.X hr2 hc2 hErc (by decide)
          omega
  · exfalso
    rw [certXStep, h] at hc
    simp at hc
  · rw [minimax_win_O h]
    norm_num

/-- Soundness of the "O to move" check: a passing certificate bounds the
maximising `minimax` value from below by zero. -/
lemma certO_sound : ∀ (fuel : Nat) (b : Board) (t : STree), WF b → certO fuel b t = true →
    ∀ (f d : Nat), emptyCount b ≤ f → 0 ≤ (minimax f b d true).1 := by
  intro fuel
  induction fuel with
  | zero =>
    intro b t hwf hc f d hf
    rcases game_state_shape b with h | h | h
    · cases hfull : board_full b with
      | true => rw [minimax_draw h hfull]
      | false =>
        exfalso
        rw [certO, h] at hc
        simp only [hfull] at hc
        rw [if_neg (by simp)] at hc
        rw [if_neg (by simp)] at hc
        exact Bool.false_ne_true hc
    · exfalso
      rw [certO, h] at hc
      simp at hc
    · rw [minimax_win_O h]
      norm_num
  | succ fuel ih =>
    intro b t hwf hc f d hf
    rcases t with ⟨m, children⟩
    rcases game_state_shape b with h | h | h
    · cases hfull : board_full b with
      | true => rw [minimax_draw h hfull]
      | false =>
        rw [certO, h] at hc
        simp only [hfull] at hc
        rw [if_neg (by simp)] at hc
        rw [if_neg (by simp)] at hc
        simp only [Bool.and_eq_true, decide_eq_true_eq] at hc
        obtain ⟨⟨⟨hm1, hm2⟩, hcp⟩, hcx⟩ := hc
        have hE : cellAt b m.1 m.2 = Cell.E := by
          by_contra hne
          rw [check_pos, if_neg hne] at hcp
          exact Bool.false_ne_true hcp
        have hr3 : m.1 < b.length := by rw [hwf.1]; exact hm1
        have hposm : m ∈ positions b :=
          mem_positions.mpr ⟨hr3, by rw [WF_row_len hwf hr3]; exact hm2⟩
        have hmem : m ∈ emptiesOf b := mem_emptiesOf.mpr ⟨hposm, hE⟩
        have hpos := emptyCount_pos hposm hE
        obtain ⟨g, rfl⟩ : ∃ g, f = g + 1 := ⟨f - 1, by omega⟩
        rw [minimax_live_max (by rw [h]) hfull]
        have hchild : 0 ≤ (minimax g (setCell b m.1 m.2 Cell.O) (d + 1) false).1 := by
          apply certXStep_sound ih _ children (WF_setCell hwf _ _ _) hcx g (d + 1)
          obtain ⟨hr2, hc2⟩ := mem_positions.mp hposm
          have := emptyCount_setCell b m.1 m.2 Cell.O hr2 hc2 hE (by decide)
          omega
        have hle := bestScoreMax_mem_le
          (fun rc => (minimax g (setCell b rc.1 rc.2 Cell.O) (d + 1) false).1)
          (emptiesOf b) (-10000) m hmem
        have hle2 : (minimax g (setCell b m.1 m.2 Cell.O) (d + 1) false).1 ≤
            bestScoreMax (fun rc => (minimax g (setCell b rc.1 rc.2 Cell.O) (d + 1) false).1)
              (emptiesOf b) (-10000) := hle
        omega
    · exfalso
      rw [certO, h] at hc
      simp at hc
    · rw [minimax_win_O h]
      norm_num

/-!
The game as played by the main loop

A state is a board together with whose turn it is (`true` = the opponent
"X" is to move).  The loop stops as soon as `game_state` reports a winner
or `board_full` holds, so moves happen only from live positions.  The
opponent picks any cell of the position dictionary (both coordinates in
`[0, 2]`) that passes `check_pos`; the automated player plays the cell
returned by `ai` (fuel 9 suffices for every well-formed board, which has at
most nine "-" cells). -/
inductive GStep : Board × Bool → Board × Bool → Prop
  | xmove (b : Board) (r c : Nat) :
      (game_state b).1 = false → board_full b = false →
      r ≤ 2 → c ≤ 2 → check_pos b r c = true →
      GStep (b, true) (setCell b r c Cell.X, false)
  | omove (b : Board) (r c : Nat) :
      (game_state b).1 = false → board_full b = false →
      (ai 9 b Cell.O).1 = some (r, c) →
      GStep (b, false) (setCell b r c Cell.O, true)

/-- The inductive invariant: the board is well-formed and the `minimax` value of the mover is non-negative ("X" to move is the minimising layer). -/
def SafeInv (b : Board) (xToMove : Bool) : Prop :=
  WF b ∧ 0 ≤ (minimax (emptyCount b) b 0 (!xToMove)).1

/-- One game step preserves the invariant. -/
lemma inv_step : ∀ {s s2 : Board × Bool}, GStep s s2 → SafeInv s.1 s.2 → SafeInv s2.1 s2.2 := by
  intro s s2 hstep hinv
  cases hstep with
  | xmove b r c hgs hfull hr hc hcp =>
    obtain ⟨hwf, hval0⟩ := hinv
    have hval : 0 ≤ (minimax (emptyCount b) b 0 false).1 := hval0
    have hE : cellAt b r c = Cell.E := by
      by_contra hne
      rw [check_pos, if_neg hne] at hcp
      exact Bool.false_ne_true hcp
    have hr3 : r < b.length := by rw [hwf.1]; omega
    have hc3 : c < (b.getD r []).length := by rw [WF_row_len hwf hr3]; omega
    have hposm : (r, c) ∈ positions b := mem_positions.mpr ⟨hr3, hc3⟩
    have hmem : (r, c) ∈ emptiesOf b := mem_emptiesOf.mpr ⟨hposm, hE⟩
    have hpos := emptyCount_pos hposm hE
    obtain ⟨g, hg⟩ : ∃ g, emptyCount b = g + 1 := ⟨emptyCount b - 1, by omega⟩
    have hecc : emptyCount (setCell b r c Cell.X) = g := by
      have := emptyCount_setCell b r c Cell.X hr3 hc3 hE (by decide)
      omega
    refine ⟨WF_setCell hwf r c Cell.X, ?_⟩
    show 0 ≤ (minimax (emptyCount (setCell b r c Cell.X)) (setCell b r c Cell.X) 0 true).1
    rw [hg, minimax_live_min hgs hfull g 0] at hval
    have hle := bestScoreMin_le_mem
      (fun rc => (minimax g (setCell b rc.1 rc.2 Cell.X) (0 + 1) true).1)
      (emptiesOf b) 10000 (r, c) hmem
    have hle2 : bestScoreMin
        (fun rc => (minimax g (setCell b rc.1 rc.2 Cell.X) (0 + 1) true).1)
        (emptiesOf b) 10000 ≤ (minimax g (setCell b r c Cell.X) (0 + 1) true).1 := hle
    have hchild : 0 ≤ (minimax g (setCell b r c Cell.X) (0 + 1) true).1 := by omega
    rw [hecc, minimax_depth_irrel g (setCell b r c Cell.X) 0 (0 + 1) true]
    exact hchild
  | omove b r c hgs hfull hai =>
    obtain ⟨hwf, hval0⟩ := hinv
    have hval : 0 ≤ (minimax (emptyCount b) b 0 true).1 := hval0
    obtain ⟨m, l1, l2, hdec, hret, hmax, hlt, hle⟩ := ai_spec 9 b Cell.O hfull
    have hm : m = (r, c) := by
      rw [hai] at hret
      exact (Option.some.inj hret).symm
    subst hm
    have hmem : (r, c) ∈ emptiesOf b := by
      rw [hdec]
      exact List.mem_append_right l1 (List.mem_cons_self _ l2)
    obtain ⟨hposm, hE⟩ := mem_emptiesOf.mp hmem
    obtain ⟨hr2, hc2⟩ := mem_positions.mp hposm
    have hpos := emptyCount_pos hposm hE
    have h9 : emptyCount b ≤ 9 := emptyCount_le_nine hwf
    obtain ⟨g, hg⟩ : ∃ g, emptyCount b = g + 1 := ⟨emptyCount b - 1, by omega⟩
    have hecc : emptyCount (setCell b r c Cell.O) = g := by
      have := emptyCount_setCell b r c Cell.O hr2 hc2 hE (by decide)
      omega
    rw [hg, minimax_live_max hgs hfull g 0] at hval
    have hcongr : bestScoreMax
        (fun rc => (minimax g (setCell b rc.1 rc.2 Cell.O) (0 + 1) false).1)
        (emptiesOf b) (-10000) =
        bestScoreMax (scoreOf 9 b Cell.O) (emptiesOf b) (-10000) := by
      apply bestScoreMax_congr
      intro rc hrc
      obtain ⟨hposrc, hErc⟩ := mem_emptiesOf.mp hrc
      obtain ⟨hrr, hcc⟩ := mem_positions.mp hposrc
      have hec2 : emptyCount (setCell b rc.1 rc.2 Cell.O) = g := by
        have := emptyCount_setCell b rc.1 rc.2 Cell.O hrr hcc hErc (by decide)
        omega
      rw [scoreOf, minimax_depth_irrel g (setCell b rc.1 rc.2 Cell.O) (0 + 1) 0 false,
        minimax_fuel_irrel g (setCell b rc.1 rc.2 Cell.O) hec2 0 false g 9 (le_refl g) (by omega)]
    rw [hcongr, ← hmax] at hval
    rw [scoreOf] at hval
    refine ⟨WF_setCell hwf r c Cell.O, ?_⟩
    show 0 ≤ (minimax (emptyCount (setCell b r c Cell.O)) (setCell b r c Cell.O) 0 false).1
    rw [hecc, minimax_fuel_irrel g (setCell b r c Cell.O) hecc 0 false g 9 (le_refl g) (by omega)]
    exact hval

/-- In a state satisfying the invariant, "X" has not won. -/
lemma inv_no_xwin {b : Board} {xm : Bool} (hinv : SafeInv b xm) :
    (game_state b).2 ≠ some Cell.X := by
  intro h
  obtain ⟨_, hval⟩ := hinv
  rcases game_state_shape b with hs | hs | hs
  · rw [hs] at h
    simp at h
  · rw [minimax_win_X hs (emptyCount b) 0 (!xm)] at hval
    have : (0 : Int) ≤ -10 := hval
    omega
  · rw [hs] at h
    simp at h

/-- The certificate accepts the empty board when the bot moves first. -/
lemma cert_empty_O : certO 9 emptyBoard oCert = true := by decide

/-- The certificate accepts the empty board when the opponent moves first. -/
lemma cert_empty_X : certX 9 emptyBoard xCert = true := by decide

/-- The invariant holds at the empty board with the bot to move. -/
lemma inv_init_O : SafeInv emptyBoard false := by
  refine ⟨by decide, ?_⟩
  have h := certO_sound 9 emptyBoard oCert (by decide) cert_empty_O
    (emptyCount emptyBoard) 0 (le_refl _)
  exact h

/-- The invariant holds at the empty board with the opponent to move. -/
lemma inv_init_X : SafeInv emptyBoard true := by
  refine ⟨by decide, ?_⟩
  have h := certXStep_sound (certO_sound 9) emptyBoard xCert (by decide) cert_empty_X
    (emptyCount emptyBoard) 0 (le_refl _)
  exact h

/-- C1 — Perfect play, no loss: starting from the empty board, with the
moves of the automated player always chosen by `ai` and the opponent playing any
legal sequence of moves on "-" cells, whichever side moves first, no
reachable state — in particular no final one — is a win for "X" (MarkA);
every finished game is therefore a draw or a MarkB win. -/
theorem C1_perfect_play (xFirst : Bool) (s : Board × Bool)
    (h : Relation.ReflTransGen GStep (emptyBoard, xFirst) s) :
    (game_state s.1).2 ≠ some Cell.X := by
  have hinv : SafeInv s.1 s.2 := by
    induction h with
    | refl =>
      cases xFirst with
      | false => exact inv_init_O
      | true => exact inv_init_X
    | tail h1 h2 ih => exact inv_step h2 ih
  exact inv_no_xwin hinv

/-- Witness for C1 at the initial state itself. -/
theorem C1_perfect_play_witness :
    Relation.ReflTransGen GStep (emptyBoard, true) (emptyBoard, true) ∧
    (game_state emptyBoard).2 ≠ some Cell.X :=
  ⟨Relation.ReflTransGen.refl,
   C1_perfect_play true (emptyBoard, true) Relation.ReflTransGen.refl⟩
